import Mathlib

/-!
Verification of the Windsurf trial reset tool (`src/reset.py`) against its
natural-language specification.

The script manipulates a single JSON configuration file.  We shallowly embed
the relevant parts of the program:

* JSON values are modelled by the inductive `JsonVal`.  A Python `dict`
  produced by `json.load` is an insertion-ordered association list
  `List (String × JsonVal)`; `dict.update` / lookup are modelled by
  `dictUpdate` / `dictGet` below, matching CPython semantics (update replaces
  the value in place for an existing key and appends new keys in order).
* The contents of a file on disk are modelled by `Content`: either text that
  parses as a JSON value (`Content.json v`) or text that `json.load` rejects
  with a `JSONDecodeError` (`Content.invalid s`).  `shutil.copy2` copies the
  bytes, hence the `Content`, unchanged.
* The file system is a partial map from paths to contents, `FS`.  A path is
  its list of components (`pathlib`'s `parts`), so `Path("")`, which pathlib
  normalises to the current directory, is the empty list.
* Nondeterministic inputs of the program — the operating system name, the
  `APPDATA` environment variable, the home directory, directory existence and
  writability, the wall-clock timestamp used in backup names, the user's
  yes/no answer to the backup prompt, whether `shutil.copy2` succeeds, and
  the bytes drawn from `os.urandom` / `uuid.uuid4` — are explicit parameters.

Terminal-UI rendering (panels, spinners, keypresses) has no effect on the
file system or the returned data and is not modelled.
-/

/-- A JSON value, as produced by Python's `json.load`.  Objects are
insertion-ordered association lists, as CPython dicts are. -/
inductive JsonVal : Type where
  | str : String → JsonVal
  | num : Int → JsonVal
  | bool : Bool → JsonVal
  | null : JsonVal
  | arr : List JsonVal → JsonVal
  | obj : List (String × JsonVal) → JsonVal

/-- The bytes stored in a file, abstracted by how `json.load` reads them:
either text serialising the JSON value `v`, or text that raises
`JSONDecodeError`. -/
inductive Content : Type where
  | json : JsonVal → Content
  | invalid : String → Content

/-- A filesystem path, as its list of components (`pathlib.Path.parts`).
`Path("")` normalises to the current directory and is modelled by `[]`. -/
abbrev FilePath0 := List String

/-- The file system: a partial map from paths to file contents. -/
abbrev FS := FilePath0 → Option Content

/-- Writing content `c` at path `p` (modelling `open(p, "w")` + write, and
also the destination side of `shutil.copy2`). -/
def FS.set (fs : FS) (p : FilePath0) (c : Content) : FS :=
  fun q => if q = p then some c else fs q

theorem FS.set_self (fs : FS) (p : FilePath0) (c : Content) :
    fs.set p c p = some c := by
  simp [FS.set]

theorem FS.set_other (fs : FS) (p q : FilePath0) (c : Content) (h : q ≠ p) :
    fs.set p c q = fs q := by
  simp [FS.set, h]

/-- Lookup in a Python dict modelled as an association list:
`d[k]`, i.e. the value at the first (unique, for genuine dicts) entry
whose key is `k`. -/
def dictGet (d : List (String × JsonVal)) (k : String) : Option JsonVal :=
  (d.find? (fun p => p.1 = k)).map Prod.snd

/-- Setting one key in a Python dict: if the key is present its value is
replaced in place (CPython keeps the insertion position), otherwise the
entry is appended at the end. -/
def dictSet (d : List (String × JsonVal)) (k : String) (v : JsonVal) :
    List (String × JsonVal) :=
  if d.any (fun p => p.1 = k) then
    d.map (fun p => if p.1 = k then (k, v) else p)
  else
    d ++ [(k, v)]

/-- Python's `d.update(u)`: set every entry of `u` into `d`, in order. -/
def dictUpdate (d u : List (String × JsonVal)) : List (String × JsonVal) :=
  u.foldl (fun acc p => dictSet acc p.1 p.2) d

theorem dictGet_dictSet_self (d : List (String × JsonVal)) (k : String)
    (v : JsonVal) : dictGet (dictSet d k v) k = some v := by
  unfold dictSet
  split
  · rename_i hany
    unfold dictGet
    induction d with
    | nil => simp at hany
    | cons hd tl ih =>
      by_cases hk : hd.1 = k
      · simp [List.find?, hk]
      · simp only [List.any_cons, hk, decide_eq_true_eq, false_or] at hany
        simp only [List.map_cons, if_neg hk, List.find?]
        have : (decide (hd.1 = k)) = false := by simpa using hk
        simp only [this]
        exact ih hany
  · unfold dictGet
    rename_i hany
    induction d with
    | nil => simp [List.find?]
    | cons hd tl ih =>
      simp only [List.any_cons, Bool.or_eq_true, decide_eq_true_eq, not_or] at hany
      simp only [List.cons_append, List.find?]
      have : (decide (hd.1 = k)) = false := by simpa using hany.1
      simp only [this]
      exact ih (by simpa using hany.2)

theorem find?_map_replace (d : List (String × JsonVal)) (k k' : String)
    (v : JsonVal) (h : k' ≠ k) :
    List.find? (fun p => p.1 = k') (d.map (fun p => if p.1 = k then (k, v) else p)) =
      List.find? (fun p => p.1 = k') d := by
  induction d with
  | nil => simp
  | cons hd tl ih =>
    by_cases hk : hd.1 = k
    · have h1 : (decide ((k : String) = k')) = false :=
        decide_eq_false (fun hkk => h hkk.symm)
      have h2 : (decide (hd.1 = k')) = false :=
        decide_eq_false (fun hkk => h (hk ▸ hkk).symm)
      simp only [List.map_cons, if_pos hk, List.find?, h1, h2]
      exact ih
    · simp only [List.map_cons, if_neg hk, List.find?]
      cases hd2 : decide (hd.1 = k') with
      | true => rfl
      | false => exact ih

theorem find?_append_single (d : List (String × JsonVal)) (k k' : String)
    (v : JsonVal) (h : k' ≠ k) :
    List.find? (fun p => p.1 = k') (d ++ [(k, v)]) =
      List.find? (fun p => p.1 = k') d := by
  induction d with
  | nil =>
    have h1 : (decide ((k : String) = k')) = false :=
      decide_eq_false (fun hkk => h hkk.symm)
    simp [List.find?, h1]
  | cons hd tl ih =>
    simp only [List.cons_append, List.find?]
    cases hd2 : decide (hd.1 = k') with
    | true => rfl
    | false => exact ih

theorem dictGet_dictSet_other (d : List (String × JsonVal)) (k k' : String)
    (v : JsonVal) (h : k' ≠ k) : dictGet (dictSet d k v) k' = dictGet d k' := by
  unfold dictSet dictGet
  split
  · rw [find?_map_replace d k k' v h]
  · rw [find?_append_single d k k' v h]

/-! ## IdGenerator: `generate_device_ids` (src/reset.py lines 291-302)

`os.urandom(32).hex()` encodes 32 random bytes as lowercase hex;
`uuid.uuid4()` builds a UUID from 16 random bytes after forcing the version
nibble of byte 6 to 4 and the two top bits of byte 8 to the RFC 4122 variant
`10`, and `str()` renders it as lowercase hex in 8-4-4-4-12 groups. -/

/-- One lowercase hexadecimal digit, as Python's `bytes.hex` / `%x` emit. -/
def hexDigit (n : Nat) : Char :=
  match n with
  | 0 => '0' | 1 => '1' | 2 => '2' | 3 => '3' | 4 => '4' | 5 => '5'
  | 6 => '6' | 7 => '7' | 8 => '8' | 9 => '9' | 10 => 'a' | 11 => 'b'
  | 12 => 'c' | 13 => 'd' | 14 => 'e' | _ => 'f'

/-- The two hex digits of one byte (high nibble first). -/
def byteHex (b : Nat) : List Char :=
  [hexDigit (b / 16), hexDigit (b % 16)]

/-- The character list of `bytes(bs).hex()`. -/
def bytesHexChars (bs : List Nat) : List Char :=
  (bs.map byteHex).flatten

/-- Python's `bytes(bs).hex()`. -/
def bytesHex (bs : List Nat) : String :=
  ⟨bytesHexChars bs⟩

/-- The byte adjustment done by `uuid.UUID(bytes=..., version=4)`: the high
nibble of byte 6 becomes `4` and the two high bits of byte 8 become `10`.
`uuid.uuid4` only ever receives the 16 bytes of `os.urandom(16)`, so the
catch-all branch is never exercised. -/
def uuid4Bytes : List Nat → List Nat
  | [b0, b1, b2, b3, b4, b5, b6, b7, b8, b9, b10, b11, b12, b13, b14, b15] =>
    [b0, b1, b2, b3, b4, b5, b6 % 16 + 64, b7,
     b8 % 64 + 128, b9, b10, b11, b12, b13, b14, b15]
  | bs => bs

/-- `str(uuid.uuid4())` on the 16 bytes `bs` of `os.urandom(16)`:
32 lowercase hex digits in groups of 8-4-4-4-12 separated by dashes. -/
def uuid4String (bs : List Nat) : String :=
  let h := bytesHexChars (uuid4Bytes bs)
  ⟨h.take 8 ++ '-' :: ((h.drop 8).take 4 ++ '-' :: ((h.drop 12).take 4 ++
    '-' :: ((h.drop 16).take 4 ++ '-' :: h.drop 20)))⟩

/-- The randomness consumed by one call of `generate_device_ids`: two
`os.urandom(32)` draws and the `os.urandom(16)` draw inside `uuid.uuid4`. -/
structure Urandom : Type where
  machineBytes : List Nat
  macBytes : List Nat
  uuidBytes : List Nat

/-- That a `Urandom` value is what `os.urandom` actually returns: byte lists
of length 32, 32 and 16. -/
def Urandom.WF (r : Urandom) : Prop :=
  r.machineBytes.length = 32 ∧ (∀ b ∈ r.machineBytes, b < 256) ∧
  r.macBytes.length = 32 ∧ (∀ b ∈ r.macBytes, b < 256) ∧
  r.uuidBytes.length = 16 ∧ (∀ b ∈ r.uuidBytes, b < 256)

/-- Embedding of `generate_device_ids` (src/reset.py lines 291-302), the
returned dict written as its insertion-ordered entry list. -/
def generate_device_ids (r : Urandom) : List (String × JsonVal) :=
  [("telemetry.machineId", JsonVal.str (bytesHex r.machineBytes)),
   ("telemetry.macMachineId", JsonVal.str (bytesHex r.macBytes)),
   ("telemetry.devDeviceId", JsonVal.str (uuid4String r.uuidBytes))]

/-- Lowercase-hexadecimal character test. -/
def isHexLower (c : Char) : Bool :=
  (('0' ≤ c) && (c ≤ '9')) || (('a' ≤ c) && (c ≤ 'f'))

/-- Every character of the string is a lowercase hex digit. -/
def allHexLower (s : String) : Bool :=
  s.toList.all isHexLower

/-- The version-4 UUID textual format on a character list: 36 characters,
dashes at positions 8, 13, 18 and 23, the version digit '4' at position 14,
a variant digit in 8/9/a/b at position 19, lowercase hex elsewhere. -/
def isUuid4Chars : List Char → Bool
  | a0 :: a1 :: a2 :: a3 :: a4 :: a5 :: a6 :: a7 :: d1 ::
    b0 :: b1 :: b2 :: b3 :: d2 :: v0 :: c0 :: c1 :: c2 :: d3 ::
    w0 :: e0 :: e1 :: e2 :: d4 ::
    f0 :: f1 :: f2 :: f3 :: f4 :: f5 :: f6 :: f7 :: f8 :: f9 :: f10 :: f11 :: [] =>
    (d1 == '-') && (d2 == '-') && (d3 == '-') && (d4 == '-') &&
    (v0 == '4') &&
    ((w0 == '8') || (w0 == '9') || (w0 == 'a') || (w0 == 'b')) &&
    ([a0, a1, a2, a3, a4, a5, a6, a7, b0, b1, b2, b3, c0, c1, c2,
      e0, e1, e2, f0, f1, f2, f3, f4, f5, f6, f7, f8, f9, f10, f11].all isHexLower)
  | _ => false

/-- The version-4 UUID textual format on a string. -/
def isUuid4 (s : String) : Bool :=
  isUuid4Chars s.toList

theorem isHexLower_hexDigit (n : Nat) (h : n < 16) :
    isHexLower (hexDigit n) = true := by
  interval_cases n <;> decide

theorem bytesHexChars_length (bs : List Nat) :
    (bytesHexChars bs).length = 2 * bs.length := by
  induction bs with
  | nil => rfl
  | cons b tl ih =>
    simp only [bytesHexChars, List.map_cons, List.flatten_cons, List.length_append,
      List.length_cons] at *
    simp [byteHex, ih]
    omega

theorem bytesHexChars_allHex (bs : List Nat) (h : ∀ b ∈ bs, b < 256) :
    (bytesHexChars bs).all isHexLower = true := by
  induction bs with
  | nil => rfl
  | cons b tl ih =>
    simp only [bytesHexChars, List.map_cons, List.flatten_cons, List.all_append,
      Bool.and_eq_true]
    constructor
    · have hb : b < 256 := h b (by simp)
      simp only [byteHex, List.all_cons, List.all_nil, Bool.and_true,
        Bool.and_eq_true]
      exact ⟨isHexLower_hexDigit _ (by omega), isHexLower_hexDigit _ (by omega)⟩
    · exact ih (fun x hx => h x (by simp [hx]))

theorem bytesHex_length (bs : List Nat) : (bytesHex bs).length = 2 * bs.length :=
  bytesHexChars_length bs

theorem bytesHex_allHex (bs : List Nat) (h : ∀ b ∈ bs, b < 256) :
    allHexLower (bytesHex bs) = true :=
  bytesHexChars_allHex bs h

theorem uuid4String_isUuid4 (bs : List Nat) (hlen : bs.length = 16)
    (hb : ∀ b ∈ bs, b < 256) : isUuid4 (uuid4String bs) = true := by
  rcases bs with _ | ⟨b0, _ | ⟨b1, _ | ⟨b2, _ | ⟨b3, _ | ⟨b4, _ | ⟨b5, _ | ⟨b6,
    _ | ⟨b7, _ | ⟨b8, _ | ⟨b9, _ | ⟨b10, _ | ⟨b11, _ | ⟨b12, _ | ⟨b13, _ | ⟨b14,
    _ | ⟨b15, _ | ⟨b16, rest⟩⟩⟩⟩⟩⟩⟩⟩⟩⟩⟩⟩⟩⟩⟩⟩⟩ <;>
    simp only [List.length_cons, List.length_nil] at hlen <;> try omega
  have h0 : b0 < 256 := hb b0 (by simp)
  have h1 : b1 < 256 := hb b1 (by simp)
  have h2 : b2 < 256 := hb b2 (by simp)
  have h3 : b3 < 256 := hb b3 (by simp)
  have h4 : b4 < 256 := hb b4 (by simp)
  have h5 : b5 < 256 := hb b5 (by simp)
  have h6 : b6 < 256 := hb b6 (by simp)
  have h7 : b7 < 256 := hb b7 (by simp)
  have h8 : b8 < 256 := hb b8 (by simp)
  have h9 : b9 < 256 := hb b9 (by simp)
  have h10 : b10 < 256 := hb b10 (by simp)
  have h11 : b11 < 256 := hb b11 (by simp)
  have h12 : b12 < 256 := hb b12 (by simp)
  have h13 : b13 < 256 := hb b13 (by simp)
  have h14 : b14 < 256 := hb b14 (by simp)
  have h15 : b15 < 256 := hb b15 (by simp)
  have hexp : (uuid4String [b0, b1, b2, b3, b4, b5, b6, b7, b8, b9, b10, b11,
      b12, b13, b14, b15]).toList =
      hexDigit (b0 / 16) :: hexDigit (b0 % 16) :: hexDigit (b1 / 16) ::
      hexDigit (b1 % 16) :: hexDigit (b2 / 16) :: hexDigit (b2 % 16) ::
      hexDigit (b3 / 16) :: hexDigit (b3 % 16) :: '-' ::
      hexDigit (b4 / 16) :: hexDigit (b4 % 16) :: hexDigit (b5 / 16) ::
      hexDigit (b5 % 16) :: '-' ::
      hexDigit ((b6 % 16 + 64) / 16) :: hexDigit ((b6 % 16 + 64) % 16) ::
      hexDigit (b7 / 16) :: hexDigit (b7 % 16) :: '-' ::
      hexDigit ((b8 % 64 + 128) / 16) :: hexDigit ((b8 % 64 + 128) % 16) ::
      hexDigit (b9 / 16) :: hexDigit (b9 % 16) :: '-' ::
      hexDigit (b10 / 16) :: hexDigit (b10 % 16) :: hexDigit (b11 / 16) ::
      hexDigit (b11 % 16) :: hexDigit (b12 / 16) :: hexDigit (b12 % 16) ::
      hexDigit (b13 / 16) :: hexDigit (b13 % 16) :: hexDigit (b14 / 16) ::
      hexDigit (b14 % 16) :: hexDigit (b15 / 16) :: hexDigit (b15 % 16) :: [] := rfl
  have hver : hexDigit ((b6 % 16 + 64) / 16) = '4' := by
    have hq : (b6 % 16 + 64) / 16 = 4 := by omega
    rw [hq]
    decide
  have hvar : ((hexDigit ((b8 % 64 + 128) / 16) == '8') ||
      (hexDigit ((b8 % 64 + 128) / 16) == '9') ||
      (hexDigit ((b8 % 64 + 128) / 16) == 'a') ||
      (hexDigit ((b8 % 64 + 128) / 16) == 'b')) = true := by
    have hq : (b8 % 64 + 128) / 16 = 8 ∨ (b8 % 64 + 128) / 16 = 9 ∨
        (b8 % 64 + 128) / 16 = 10 ∨ (b8 % 64 + 128) / 16 = 11 := by omega
    rcases hq with hq | hq | hq | hq <;> rw [hq] <;> decide
  have k00 : isHexLower (hexDigit (b0 / 16)) = true := isHexLower_hexDigit _ (by omega)
  have k01 : isHexLower (hexDigit (b0 % 16)) = true := isHexLower_hexDigit _ (by omega)
  have k10 : isHexLower (hexDigit (b1 / 16)) = true := isHexLower_hexDigit _ (by omega)
  have k11 : isHexLower (hexDigit (b1 % 16)) = true := isHexLower_hexDigit _ (by omega)
  have k20 : isHexLower (hexDigit (b2 / 16)) = true := isHexLower_hexDigit _ (by omega)
  have k21 : isHexLower (hexDigit (b2 % 16)) = true := isHexLower_hexDigit _ (by omega)
  have k30 : isHexLower (hexDigit (b3 / 16)) = true := isHexLower_hexDigit _ (by omega)
  have k31 : isHexLower (hexDigit (b3 % 16)) = true := isHexLower_hexDigit _ (by omega)
  have k40 : isHexLower (hexDigit (b4 / 16)) = true := isHexLower_hexDigit _ (by omega)
  have k41 : isHexLower (hexDigit (b4 % 16)) = true := isHexLower_hexDigit _ (by omega)
  have k50 : isHexLower (hexDigit (b5 / 16)) = true := isHexLower_hexDigit _ (by omega)
  have k51 : isHexLower (hexDigit (b5 % 16)) = true := isHexLower_hexDigit _ (by omega)
  have k61 : isHexLower (hexDigit ((b6 % 16 + 64) % 16)) = true :=
    isHexLower_hexDigit _ (by omega)
  have k70 : isHexLower (hexDigit (b7 / 16)) = true := isHexLower_hexDigit _ (by omega)
  have k71 : isHexLower (hexDigit (b7 % 16)) = true := isHexLower_hexDigit _ (by omega)
  have k81 : isHexLower (hexDigit ((b8 % 64 + 128) % 16)) = true :=
    isHexLower_hexDigit _ (by omega)
  have k90 : isHexLower (hexDigit (b9 / 16)) = true := isHexLower_hexDigit _ (by omega)
  have k91 : isHexLower (hexDigit (b9 % 16)) = true := isHexLower_hexDigit _ (by omega)
  have kA0 : isHexLower (hexDigit (b10 / 16)) = true := isHexLower_hexDigit _ (by omega)
  have kA1 : isHexLower (hexDigit (b10 % 16)) = true := isHexLower_hexDigit _ (by omega)
  have kB0 : isHexLower (hexDigit (b11 / 16)) = true := isHexLower_hexDigit _ (by omega)
  have kB1 : isHexLower (hexDigit (b11 % 16)) = true := isHexLower_hexDigit _ (by omega)
  have kC0 : isHexLower (hexDigit (b12 / 16)) = true := isHexLower_hexDigit _ (by omega)
  have kC1 : isHexLower (hexDigit (b12 % 16)) = true := isHexLower_hexDigit _ (by omega)
  have kD0 : isHexLower (hexDigit (b13 / 16)) = true := isHexLower_hexDigit _ (by omega)
  have kD1 : isHexLower (hexDigit (b13 % 16)) = true := isHexLower_hexDigit _ (by omega)
  have kE0 : isHexLower (hexDigit (b14 / 16)) = true := isHexLower_hexDigit _ (by omega)
  have kE1 : isHexLower (hexDigit (b14 % 16)) = true := isHexLower_hexDigit _ (by omega)
  have kF0 : isHexLower (hexDigit (b15 / 16)) = true := isHexLower_hexDigit _ (by omega)
  have kF1 : isHexLower (hexDigit (b15 % 16)) = true := isHexLower_hexDigit _ (by omega)
  rw [isUuid4, hexp]
  simp only [isUuid4Chars, List.all_cons, List.all_nil]
  simp [k00, k01, k10, k11, k20, k21, k30, k31, k40, k41, k50, k51, k61, k70,
    k71, k81, k90, k91, kA0, kA1, kB0, kB1, kC0, kC1, kD0, kD1, kE0, kE1,
    kF0, kF1, hver, hvar]
  all_goals exact isHexLower_hexDigit _ (by omega)

/-! ## PathResolver: `get_storage_file` (src/reset.py lines 246-288)

The function reads `platform.system()`, the `APPDATA` environment variable
and `Path.home()`, and probes the base directory with `Path.exists` and
`os.access(..., os.W_OK)`.  These ambient inputs are gathered in `SysEnv`.
Note that `Path(os.getenv("APPDATA", ""))` is always truthy in Python (a
`Path` has no `__bool__`), so `if not base_path` is `True` exactly when
`paths.get(system)` returned `None`, i.e. for an unsupported OS name. -/

/-- Ambient system state read by the script. `appdata = none` models an
unset `APPDATA` variable, in which case `Path("")`, i.e. the current
directory `[]`, is used. -/
structure SysEnv : Type where
  system : String
  appdata : Option FilePath0
  home : FilePath0
  dirExists : FilePath0 → Bool
  dirWritable : FilePath0 → Bool

/-- The error taxonomy: every failure of the script is a
`WindsurfResetError` carrying a message; the constructors distinguish the
messages raised at each site (`unsupportedOS` = "Unsupported operating
system", `baseMissing` = "Base directory does not exist", `baseNotWritable`
= "No write permission for directory", `backupFailed` = "Failed to create
backup", `unexpected` = the generic wrap of a non-`WindsurfResetError`
exception at the bottom of `reset_windsurf_id`). -/
inductive ResetErr : Type where
  | unsupportedOS (system : String)
  | baseMissing (base : FilePath0)
  | baseNotWritable (base : FilePath0)
  | backupFailed (msg : String)
  | unexpected (msg : String)

/-- The path components appended below the OS base directory:
`Windsurf/User/globalStorage/storage.json`. -/
def storageSuffix : FilePath0 :=
  ["Windsurf", "User", "globalStorage", "storage.json"]

/-- The `paths` dict built in `get_storage_file` (lines 259-263). -/
def osPaths (env : SysEnv) : List (String × FilePath0) :=
  [("Windows", env.appdata.getD []),
   ("Darwin", env.home ++ ["Library", "Application Support"]),
   ("Linux", env.home ++ [".config"])]

/-- Embedding of `get_storage_file` (src/reset.py lines 246-288). -/
def get_storage_file (env : SysEnv) : Except ResetErr FilePath0 :=
  match (osPaths env).find? (fun p => p.1 = env.system) with
  | none => Except.error (ResetErr.unsupportedOS env.system)
  | some base =>
    let base_path := base.2
    let storage_path := base_path ++ storageSuffix
    if env.dirExists base_path = false then
      Except.error (ResetErr.baseMissing base_path)
    else if env.dirWritable base_path = false then
      Except.error (ResetErr.baseNotWritable base_path)
    else
      Except.ok storage_path

/-! ## BackupService: `backup_file` (src/reset.py lines 202-243)

`shutil.copy2` may raise on any read/write/permission failure; whether it
does is the parameter `copyOk`.  `datetime.now().strftime(...)` is the
parameter `ts`. -/

/-- The sibling path `file_path.with_name(f"{file_path.name}.backup_{ts}")`. -/
def backupPathOf (p : FilePath0) (ts : String) : FilePath0 :=
  p.dropLast ++ [p.getLastD "" ++ ".backup_" ++ ts]

/-- Embedding of `backup_file` (src/reset.py lines 202-243): returns the
file system after the call together with the returned value (`some` backup
path, `none` when the source does not exist) or the raised
`WindsurfResetError`. -/
def backup_file (fs : FS) (p : FilePath0) (ts : String) (copyOk : Bool) :
    FS × Except ResetErr (Option FilePath0) :=
  match fs p with
  | none => (fs, Except.ok none)
  | some c =>
    if copyOk then
      (fs.set (backupPathOf p ts) c, Except.ok (some (backupPathOf p ts)))
    else
      (fs, Except.error (ResetErr.backupFailed "copy2"))

/-! ## ConfigStore: the load and save steps inlined in `reset_windsurf_id`
(src/reset.py lines 377-396 and 407-408). -/

/-- The load step (lines 377-396): `data = {}`, then `json.load` if the
file exists, downgrading `JSONDecodeError` to a warning.  Returns the
loaded document and whether the invalid-JSON warning panel was shown.
Never fails. -/
def load_storage (fs : FS) (p : FilePath0) : JsonVal × Bool :=
  match fs p with
  | none => (JsonVal.obj [], false)
  | some (Content.json v) => (v, false)
  | some (Content.invalid _) => (JsonVal.obj [], true)

/-- The save step (lines 407-408): `json.dump(data, f, indent=2)` over
`open(storage_file, "w")`, overwriting the file with the serialised
document. -/
def save_storage (fs : FS) (p : FilePath0) (v : JsonVal) : FS :=
  fs.set p (Content.json v)

/-! ## ResetWorkflow: `reset_windsurf_id` (src/reset.py lines 326-440) -/

/-- What a successful run of `reset_windsurf_id` reports: whether the
invalid-JSON warning was shown, the freshly generated ids, and the `True`
return value. -/
structure ResetOutcome : Type where
  warnedInvalidJson : Bool
  newIds : List (String × JsonVal)
  returned : Bool

/-- Embedding of `reset_windsurf_id` (src/reset.py lines 326-440).

`wantBackup` is the user's answer to the backup confirmation prompt (only
consulted when the storage file exists, as in the source); `copyOk` is
whether `shutil.copy2` succeeds; `ts` the backup timestamp; `r` the
randomness drawn by `generate_device_ids`.

Returns the final file system and either the outcome of a successful run
or the `WindsurfResetError` the function raises.  The directory-creation
step (line 371) only affects directories, which the file map does not
track.  When the loaded document is not a dict, `data.update(new_ids)`
raises `AttributeError`, caught at line 433 and wrapped into a
`WindsurfResetError` — modelled by `ResetErr.unexpected`. -/
def reset_windsurf_id (env : SysEnv) (fs : FS) (wantBackup copyOk : Bool)
    (ts : String) (r : Urandom) : FS × Except ResetErr ResetOutcome :=
  match get_storage_file env with
  | Except.error e => (fs, Except.error e)
  | Except.ok storage_file =>
    let afterBackup : FS × Except ResetErr Unit :=
      if (fs storage_file).isSome then
        if wantBackup then
          match backup_file fs storage_file ts copyOk with
          | (fs1, Except.error e) => (fs1, Except.error e)
          | (fs1, Except.ok _) => (fs1, Except.ok ())
        else (fs, Except.ok ())
      else (fs, Except.ok ())
    match afterBackup with
    | (fs1, Except.error e) => (fs1, Except.error e)
    | (fs1, Except.ok _) =>
      let loaded := load_storage fs1 storage_file
      match loaded.1 with
      | JsonVal.obj kvs =>
        let new_ids := generate_device_ids r
        let data := dictUpdate kvs new_ids
        (save_storage fs1 storage_file (JsonVal.obj data),
         Except.ok ⟨loaded.2, new_ids, true⟩)
      | _ => (fs1, Except.error (ResetErr.unexpected "AttributeError"))

/-! ## Helper lemmas about the resolved storage path -/

theorem get_storage_file_shape (env : SysEnv) (p : FilePath0)
    (h : get_storage_file env = Except.ok p) :
    ∃ base, p = base ++ storageSuffix := by
  unfold get_storage_file at h
  cases hf : (osPaths env).find? (fun q => q.1 = env.system) with
  | none => rw [hf] at h; exact absurd h (by simp)
  | some base =>
    rw [hf] at h
    by_cases h1 : env.dirExists base.2 = false
    · simp [h1] at h
    · by_cases h2 : env.dirWritable base.2 = false
      · simp [h1, h2] at h
      · simp [h1, h2] at h
        exact ⟨base.2, h.symm⟩

theorem backupPathOf_storage_ne (base : FilePath0) (ts : String) :
    backupPathOf (base ++ storageSuffix) ts ≠ base ++ storageSuffix := by
  intro h
  have hsplit : base ++ storageSuffix =
      (base ++ ["Windsurf", "User", "globalStorage"]) ++ ["storage.json"] := by
    simp [storageSuffix]
  rw [hsplit] at h
  unfold backupPathOf at h
  rw [List.dropLast_concat, List.getLastD_concat] at h
  have htail : ("storage.json" ++ ".backup_" ++ ts) = "storage.json" := by
    have := List.append_cancel_left h
    simpa using this
  have hlen : ("storage.json" ++ ".backup_" ++ ts).length =
      ("storage.json" : String).length := by rw [htail]
  rw [String.length_append, String.length_append] at hlen
  have h8 : (".backup_" : String).length = 8 := rfl
  rw [h8] at hlen
  omega

theorem backup_file_preserves_src (fs : FS) (base : FilePath0) (ts : String)
    (copyOk : Bool) :
    (backup_file fs (base ++ storageSuffix) ts copyOk).1 (base ++ storageSuffix) =
      fs (base ++ storageSuffix) := by
  unfold backup_file
  cases hc : fs (base ++ storageSuffix) with
  | none => exact hc
  | some c =>
    cases copyOk with
    | false => exact hc
    | true =>
      have h := FS.set_other fs (backupPathOf (base ++ storageSuffix) ts)
        (base ++ storageSuffix) c (Ne.symm (backupPathOf_storage_ne base ts))
      show (fs.set (backupPathOf (base ++ storageSuffix) ts) c)
        (base ++ storageSuffix) = some c
      rw [h]
      exact hc

/-! ## Merge lemmas for the three identifier keys -/

theorem dictUpdate_ids_unfold (d : List (String × JsonVal)) (r : Urandom) :
    dictUpdate d (generate_device_ids r) =
      dictSet (dictSet (dictSet d
        "telemetry.machineId" (JsonVal.str (bytesHex r.machineBytes)))
        "telemetry.macMachineId" (JsonVal.str (bytesHex r.macBytes)))
        "telemetry.devDeviceId" (JsonVal.str (uuid4String r.uuidBytes)) := rfl

theorem dictGet_update_ids_machine (d : List (String × JsonVal)) (r : Urandom) :
    dictGet (dictUpdate d (generate_device_ids r)) "telemetry.machineId" =
      some (JsonVal.str (bytesHex r.machineBytes)) := by
  rw [dictUpdate_ids_unfold]
  rw [dictGet_dictSet_other _ _ _ _ (by decide)]
  rw [dictGet_dictSet_other _ _ _ _ (by decide)]
  exact dictGet_dictSet_self _ _ _

theorem dictGet_update_ids_mac (d : List (String × JsonVal)) (r : Urandom) :
    dictGet (dictUpdate d (generate_device_ids r)) "telemetry.macMachineId" =
      some (JsonVal.str (bytesHex r.macBytes)) := by
  rw [dictUpdate_ids_unfold]
  rw [dictGet_dictSet_other _ _ _ _ (by decide)]
  exact dictGet_dictSet_self _ _ _

theorem dictGet_update_ids_dev (d : List (String × JsonVal)) (r : Urandom) :
    dictGet (dictUpdate d (generate_device_ids r)) "telemetry.devDeviceId" =
      some (JsonVal.str (uuid4String r.uuidBytes)) := by
  rw [dictUpdate_ids_unfold]
  exact dictGet_dictSet_self _ _ _

theorem dictGet_update_ids_other (d : List (String × JsonVal)) (r : Urandom)
    (k : String) (h1 : k ≠ "telemetry.machineId")
    (h2 : k ≠ "telemetry.macMachineId") (h3 : k ≠ "telemetry.devDeviceId") :
    dictGet (dictUpdate d (generate_device_ids r)) k = dictGet d k := by
  rw [dictUpdate_ids_unfold, dictGet_dictSet_other _ _ _ _ h3,
    dictGet_dictSet_other _ _ _ _ h2, dictGet_dictSet_other _ _ _ _ h1]

/-! ## Concrete test fixtures used by the witness theorems -/

/-- A Linux environment where the base directory exists and is writable. -/
def envTest : SysEnv :=
  { system := "Linux", appdata := none, home := ["home", "user"],
    dirExists := fun _ => true, dirWritable := fun _ => true }

/-- The storage path `get_storage_file` resolves to under `envTest`. -/
def storageTest : FilePath0 :=
  ["home", "user", ".config"] ++ storageSuffix

/-- A fixed draw of `os.urandom` bytes (all zero). -/
def urandomTest : Urandom :=
  ⟨List.replicate 32 0, List.replicate 32 0, List.replicate 16 0⟩

/-- A file system holding a JSON object document at the storage path. -/
def fsObjTest : FS := fun q =>
  if q = storageTest then
    some (Content.json (JsonVal.obj
      [("foo", JsonVal.str "bar"), ("telemetry.machineId", JsonVal.str "old")]))
  else none

/-- A file system holding a JSON array (valid JSON, not an object) at the
storage path. -/
def fsArrTest : FS := fun q =>
  if q = storageTest then some (Content.json (JsonVal.arr [])) else none

/-- A file system holding invalid JSON text at the storage path. -/
def fsInvalidTest : FS := fun q =>
  if q = storageTest then some (Content.invalid "oops") else none

/-! ## Claim theorems -/

/-- C5: Path resolution is a total function of the host OS identifier: for
Windows it returns `%APPDATA%/Windsurf/User/globalStorage/storage.json`, for
macOS `~/Library/Application Support/Windsurf/User/globalStorage/storage.json`,
for Linux `~/.config/Windsurf/User/globalStorage/storage.json`; for any other
OS identifier it fails with an UnsupportedPlatform error; and for a supported
OS it fails with a PathUnavailable error (`baseMissing` / `baseNotWritable`,
checked before returning) when the base directory does not exist or is not
writable. -/
theorem get_storage_file_total_mapping (env : SysEnv) :
    (env.system = "Windows" → ∀ a, env.appdata = some a →
      get_storage_file env =
        (if env.dirExists a = true then
          (if env.dirWritable a = true then Except.ok (a ++ storageSuffix)
           else Except.error (ResetErr.baseNotWritable a))
         else Except.error (ResetErr.baseMissing a))) ∧
    (env.system = "Darwin" →
      get_storage_file env =
        (if env.dirExists (env.home ++ ["Library", "Application Support"]) = true then
          (if env.dirWritable (env.home ++ ["Library", "Application Support"]) = true then
            Except.ok (env.home ++ ["Library", "Application Support"] ++ storageSuffix)
           else Except.error
             (ResetErr.baseNotWritable (env.home ++ ["Library", "Application Support"])))
         else Except.error
           (ResetErr.baseMissing (env.home ++ ["Library", "Application Support"])))) ∧
    (env.system = "Linux" →
      get_storage_file env =
        (if env.dirExists (env.home ++ [".config"]) = true then
          (if env.dirWritable (env.home ++ [".config"]) = true then
            Except.ok (env.home ++ [".config"] ++ storageSuffix)
           else Except.error (ResetErr.baseNotWritable (env.home ++ [".config"])))
         else Except.error (ResetErr.baseMissing (env.home ++ [".config"])))) ∧
    (env.system ≠ "Windows" → env.system ≠ "Darwin" → env.system ≠ "Linux" →
      get_storage_file env = Except.error (ResetErr.unsupportedOS env.system)) := by
  refine ⟨?_, ?_, ?_, ?_⟩
  · intro hsys a ha
    unfold get_storage_file osPaths
    rw [hsys, ha]
    simp only [List.find?, Option.getD_some]
    cases h1 : env.dirExists a <;> cases h2 : env.dirWritable a <;> simp [h1, h2]
  · intro hsys
    unfold get_storage_file osPaths
    rw [hsys]
    simp only [List.find?]
    cases h1 : env.dirExists (env.home ++ ["Library", "Application Support"]) <;>
      cases h2 : env.dirWritable (env.home ++ ["Library", "Application Support"]) <;>
      simp [h1, h2]
  · intro hsys
    unfold get_storage_file osPaths
    rw [hsys]
    simp only [List.find?]
    cases h1 : env.dirExists (env.home ++ [".config"]) <;>
      cases h2 : env.dirWritable (env.home ++ [".config"]) <;>
      simp [h1, h2]
  · intro h1 h2 h3
    unfold get_storage_file osPaths
    have d1 : (decide (("Windows" : String) = env.system)) = false :=
      decide_eq_false (fun h => h1 h.symm)
    have d2 : (decide (("Darwin" : String) = env.system)) = false :=
      decide_eq_false (fun h => h2 h.symm)
    have d3 : (decide (("Linux" : String) = env.system)) = false :=
      decide_eq_false (fun h => h3 h.symm)
    simp only [List.find?, d1, d2, d3]

/-- Witness for C5: the mapping evaluated in a concrete Linux environment. -/
theorem get_storage_file_total_mapping_witness :
    envTest.system = "Linux" ∧
    get_storage_file envTest =
      (if envTest.dirExists (envTest.home ++ [".config"]) = true then
        (if envTest.dirWritable (envTest.home ++ [".config"]) = true then
          Except.ok (envTest.home ++ [".config"] ++ storageSuffix)
         else Except.error (ResetErr.baseNotWritable (envTest.home ++ [".config"])))
       else Except.error (ResetErr.baseMissing (envTest.home ++ [".config"]))) :=
  ⟨rfl, (get_storage_file_total_mapping envTest).2.2.1 rfl⟩

/-- C9: On Windows with `APPDATA` unset, path resolution does not fail with
an UnsupportedPlatform error: `Path("")` (the current directory, `[]`) is
used as the base, the existence and writability checks are performed
against it, and the returned storage path is the relative path
`Windsurf/User/globalStorage/storage.json`. -/
theorem get_storage_file_windows_no_appdata (env : SysEnv)
    (hsys : env.system = "Windows") (hap : env.appdata = none) :
    get_storage_file env =
      (if env.dirExists [] = true then
        (if env.dirWritable [] = true then Except.ok storageSuffix
         else Except.error (ResetErr.baseNotWritable []))
       else Except.error (ResetErr.baseMissing [])) ∧
    ∀ s, get_storage_file env ≠ Except.error (ResetErr.unsupportedOS s) := by
  have hmain : get_storage_file env =
      (if env.dirExists [] = true then
        (if env.dirWritable [] = true then Except.ok storageSuffix
         else Except.error (ResetErr.baseNotWritable []))
       else Except.error (ResetErr.baseMissing [])) := by
    unfold get_storage_file osPaths
    rw [hsys, hap]
    simp only [List.find?, Option.getD_none]
    cases h1 : env.dirExists [] <;> cases h2 : env.dirWritable [] <;> simp [h1, h2]
  refine ⟨hmain, ?_⟩
  intro s hcontra
  rw [hmain] at hcontra
  by_cases h1 : env.dirExists [] = true
  · by_cases h2 : env.dirWritable [] = true
    · simp [h1, h2] at hcontra
    · simp [h1, h2] at hcontra
  · simp [h1] at hcontra

/-- A Windows environment with `APPDATA` unset, current directory usable. -/
def envWinTest : SysEnv :=
  { system := "Windows", appdata := none, home := ["home", "user"],
    dirExists := fun _ => true, dirWritable := fun _ => true }

/-- Witness for C9: concrete Windows environment without `APPDATA`. -/
theorem get_storage_file_windows_no_appdata_witness :
    envWinTest.system = "Windows" ∧ envWinTest.appdata = none ∧
    (get_storage_file envWinTest =
      (if envWinTest.dirExists [] = true then
        (if envWinTest.dirWritable [] = true then Except.ok storageSuffix
         else Except.error (ResetErr.baseNotWritable []))
       else Except.error (ResetErr.baseMissing [])) ∧
     ∀ s, get_storage_file envWinTest ≠ Except.error (ResetErr.unsupportedOS s)) :=
  ⟨rfl, rfl, get_storage_file_windows_no_appdata envWinTest rfl rfl⟩

/-- C6: `backup_file` on a non-existent source returns `none` ("no backup")
without raising any error, whatever `copyOk`; on an existing source (with
the copy succeeding) it writes a sibling file named
`<original-name>.backup_<ts>` whose content equals the source's content at
copy time, and returns that path. -/
theorem backup_file_spec (fs : FS) (p : FilePath0) (ts : String) :
    (∀ copyOk, fs p = none → backup_file fs p ts copyOk = (fs, Except.ok none)) ∧
    (∀ c, fs p = some c →
      backup_file fs p ts true =
        (fs.set (backupPathOf p ts) c, Except.ok (some (backupPathOf p ts))) ∧
      (backup_file fs p ts true).1 (backupPathOf p ts) = some c ∧
      backupPathOf p ts = p.dropLast ++ [p.getLastD "" ++ ".backup_" ++ ts]) := by
  constructor
  · intro copyOk h
    unfold backup_file
    rw [h]
  · intro c h
    refine ⟨?_, ?_, rfl⟩
    · unfold backup_file
      rw [h]
      simp
    · unfold backup_file
      rw [h]
      simp [FS.set_self]

/-- Witness for C6: a concrete existing source and a concrete missing one. -/
theorem backup_file_spec_witness :
    backup_file fsObjTest storageTest "20250101_000000" true =
      (fsObjTest.set (backupPathOf storageTest "20250101_000000")
        (Content.json (JsonVal.obj
          [("foo", JsonVal.str "bar"),
           ("telemetry.machineId", JsonVal.str "old")])),
       Except.ok (some (backupPathOf storageTest "20250101_000000"))) ∧
    backup_file fsObjTest ["nope"] "20250101_000000" true =
      (fsObjTest, Except.ok none) :=
  ⟨((backup_file_spec fsObjTest storageTest "20250101_000000").2 _ rfl).1,
   (backup_file_spec fsObjTest ["nope"] "20250101_000000").1 true rfl⟩

/-- C10: if a file already exists at the computed timestamped backup name
(a same-second collision), `backup_file` silently overwrites it with the
new copy instead of failing or picking a different name. -/
theorem backup_file_overwrites_collision (fs : FS) (p : FilePath0)
    (ts : String) (c old : Content) (hc : fs p = some c)
    (hold : fs (backupPathOf p ts) = some old) :
    backup_file fs p ts true =
      (fs.set (backupPathOf p ts) c, Except.ok (some (backupPathOf p ts))) ∧
    (backup_file fs p ts true).1 (backupPathOf p ts) = some c := by
  constructor
  · unfold backup_file
    rw [hc]
    simp
  · unfold backup_file
    rw [hc]
    simp [FS.set_self]

/-- A file system where both the storage file and its timestamped backup
name already exist. -/
def fsCollisionTest : FS := fun q =>
  if q = storageTest then some (Content.json (JsonVal.obj []))
  else if q = backupPathOf storageTest "20250101_000000" then
    some (Content.invalid "oldbackup")
  else none

/-- Witness for C10: a concrete same-second collision being overwritten. -/
theorem backup_file_overwrites_collision_witness :
    backup_file fsCollisionTest storageTest "20250101_000000" true =
      (fsCollisionTest.set (backupPathOf storageTest "20250101_000000")
        (Content.json (JsonVal.obj [])),
       Except.ok (some (backupPathOf storageTest "20250101_000000"))) ∧
    (backup_file fsCollisionTest storageTest "20250101_000000" true).1
      (backupPathOf storageTest "20250101_000000") =
      some (Content.json (JsonVal.obj [])) :=
  backup_file_overwrites_collision fsCollisionTest storageTest "20250101_000000"
    (Content.json (JsonVal.obj [])) (Content.invalid "oldbackup") rfl rfl

/-- C7: every call of `generate_device_ids` returns exactly the three
identifier keys; the machine id and mac-machine id are 64 lowercase hex
characters each, and the device id matches the version-4 UUID textual
format. -/
theorem generate_device_ids_format (r : Urandom) (h : r.WF) :
    generate_device_ids r =
      [("telemetry.machineId", JsonVal.str (bytesHex r.machineBytes)),
       ("telemetry.macMachineId", JsonVal.str (bytesHex r.macBytes)),
       ("telemetry.devDeviceId", JsonVal.str (uuid4String r.uuidBytes))] ∧
    (bytesHex r.machineBytes).length = 64 ∧
    allHexLower (bytesHex r.machineBytes) = true ∧
    (bytesHex r.macBytes).length = 64 ∧
    allHexLower (bytesHex r.macBytes) = true ∧
    isUuid4 (uuid4String r.uuidBytes) = true := by
  obtain ⟨h1, h2, h3, h4, h5, h6⟩ := h
  refine ⟨rfl, ?_, bytesHex_allHex _ h2, ?_, bytesHex_allHex _ h4,
    uuid4String_isUuid4 _ h5 h6⟩
  · rw [bytesHex_length, h1]
  · rw [bytesHex_length, h3]

/-- Witness for C7: the generator evaluated on a fixed all-zero draw. -/
theorem generate_device_ids_format_witness :
    urandomTest.WF ∧
    (generate_device_ids urandomTest =
      [("telemetry.machineId", JsonVal.str (bytesHex urandomTest.machineBytes)),
       ("telemetry.macMachineId", JsonVal.str (bytesHex urandomTest.macBytes)),
       ("telemetry.devDeviceId", JsonVal.str (uuid4String urandomTest.uuidBytes))] ∧
     (bytesHex urandomTest.machineBytes).length = 64 ∧
     allHexLower (bytesHex urandomTest.machineBytes) = true ∧
     (bytesHex urandomTest.macBytes).length = 64 ∧
     allHexLower (bytesHex urandomTest.macBytes) = true ∧
     isUuid4 (uuid4String urandomTest.uuidBytes) = true) := by
  have hwf : urandomTest.WF := by
    refine ⟨rfl, ?_, rfl, ?_, rfl, ?_⟩ <;>
      · intro b hb
        have := List.eq_of_mem_replicate hb
        omega
  exact ⟨hwf, generate_device_ids_format urandomTest hwf⟩

/-- C2: if the user requests a backup and the copy fails, the reset aborts
with the backup error before loading, merging or saving: the returned file
system is exactly the input one, so the live configuration file (and every
other file) is unchanged. -/
theorem reset_backup_failure_aborts (env : SysEnv) (fs : FS) (ts : String)
    (r : Urandom) (p : FilePath0) (c : Content)
    (hres : get_storage_file env = Except.ok p) (hex : fs p = some c) :
    reset_windsurf_id env fs true false ts r =
      (fs, Except.error (ResetErr.backupFailed "copy2")) := by
  simp [reset_windsurf_id, backup_file, hres, hex]

/-- Witness for C2: a concrete failing backup aborting a concrete reset. -/
theorem reset_backup_failure_aborts_witness :
    reset_windsurf_id envTest fsObjTest true false "20250101_000000" urandomTest =
      (fsObjTest, Except.error (ResetErr.backupFailed "copy2")) :=
  reset_backup_failure_aborts envTest fsObjTest "20250101_000000" urandomTest
    storageTest
    (Content.json (JsonVal.obj
      [("foo", JsonVal.str "bar"), ("telemetry.machineId", JsonVal.str "old")]))
    rfl rfl

/-- C4: loading never fails — a missing file loads as the empty document
with no warning, a file with invalid JSON loads as the empty document with
a recoverable warning (the corrupt file is not touched by the load), and
the subsequent save step of the reset succeeds and overwrites the corrupt
content with the merged document. -/
theorem load_storage_never_fails (env : SysEnv) (fs : FS) (p : FilePath0)
    (s : String) (ts : String) (r : Urandom)
    (hres : get_storage_file env = Except.ok p)
    (hinv : fs p = some (Content.invalid s)) :
    (∀ fs2 : FS, fs2 p = none → load_storage fs2 p = (JsonVal.obj [], false)) ∧
    load_storage fs p = (JsonVal.obj [], true) ∧
    reset_windsurf_id env fs false true ts r =
      (save_storage fs p (JsonVal.obj (dictUpdate [] (generate_device_ids r))),
       Except.ok ⟨true, generate_device_ids r, true⟩) := by
  refine ⟨?_, ?_, ?_⟩
  · intro fs2 h2
    unfold load_storage
    rw [h2]
  · unfold load_storage
    rw [hinv]
  · simp [reset_windsurf_id, hres, hinv, load_storage, save_storage]

/-- Witness for C4: a concrete file with invalid JSON. -/
theorem load_storage_never_fails_witness :
    (∀ fs2 : FS, fs2 storageTest = none →
      load_storage fs2 storageTest = (JsonVal.obj [], false)) ∧
    load_storage fsInvalidTest storageTest = (JsonVal.obj [], true) ∧
    reset_windsurf_id envTest fsInvalidTest false true "20250101_000000"
        urandomTest =
      (save_storage fsInvalidTest storageTest
        (JsonVal.obj (dictUpdate [] (generate_device_ids urandomTest))),
       Except.ok ⟨true, generate_device_ids urandomTest, true⟩) :=
  load_storage_never_fails envTest fsInvalidTest storageTest "oops"
    "20250101_000000" urandomTest rfl rfl

/-- C1 counterexample: with a valid-JSON array document in the storage
file, the reset does not complete successfully with a warning — it fails
(`data.update` raises `AttributeError`, wrapped into a terminal
`WindsurfResetError`). -/
theorem reset_nonobject_cex :
    (reset_windsurf_id envTest fsArrTest false true "20250101_000000"
      urandomTest).2 =
      Except.error (ResetErr.unexpected "AttributeError") := rfl

/-- C1 (amended): if the configuration file contains valid JSON whose
top-level value is not an object, the reset workflow (run without a
backup request) fails with a terminal wrapped error — not a recoverable
warning — and leaves the file system unchanged. -/
theorem reset_nonobject_terminal (env : SysEnv) (fs : FS) (copyOk : Bool)
    (ts : String) (r : Urandom) (p : FilePath0) (v : JsonVal)
    (hres : get_storage_file env = Except.ok p)
    (hv : fs p = some (Content.json v))
    (hno : ∀ kvs, v ≠ JsonVal.obj kvs) :
    reset_windsurf_id env fs false copyOk ts r =
      (fs, Except.error (ResetErr.unexpected "AttributeError")) := by
  cases v with
  | obj kvs => exact absurd rfl (hno kvs)
  | str s => simp [reset_windsurf_id, hres, hv, load_storage]
  | num n => simp [reset_windsurf_id, hres, hv, load_storage]
  | bool b => simp [reset_windsurf_id, hres, hv, load_storage]
  | null => simp [reset_windsurf_id, hres, hv, load_storage]
  | arr xs => simp [reset_windsurf_id, hres, hv, load_storage]

/-- Witness for the amended C1: the concrete array document again. -/
theorem reset_nonobject_terminal_witness :
    reset_windsurf_id envTest fsArrTest false true "20250101_000000"
      urandomTest =
      (fsArrTest, Except.error (ResetErr.unexpected "AttributeError")) :=
  reset_nonobject_terminal envTest fsArrTest true "20250101_000000"
    urandomTest storageTest (JsonVal.arr []) rfl rfl
    (fun kvs h => JsonVal.noConfusion h)

/-- C3: whenever the loaded configuration document is a JSON object and the
reset succeeds, the saved document is the loaded one updated with the three
generated identifier entries: every other key keeps its previous value, the
three telemetry keys map to the freshly generated values, and in particular
a prior machine-id value whose length is not 64 (such as `"old"`) is
replaced by a different value. -/
theorem reset_merge_frame (env : SysEnv) (fs : FS) (wb co : Bool)
    (ts : String) (r : Urandom) (p : FilePath0)
    (kvs : List (String × JsonVal)) (out : ResetOutcome)
    (hres : get_storage_file env = Except.ok p)
    (hobj : (load_storage fs p).1 = JsonVal.obj kvs)
    (hok : (reset_windsurf_id env fs wb co ts r).2 = Except.ok out) :
    (reset_windsurf_id env fs wb co ts r).1 p =
      some (Content.json (JsonVal.obj (dictUpdate kvs (generate_device_ids r)))) ∧
    (∀ k, k ≠ "telemetry.machineId" → k ≠ "telemetry.macMachineId" →
      k ≠ "telemetry.devDeviceId" →
      dictGet (dictUpdate kvs (generate_device_ids r)) k = dictGet kvs k) ∧
    dictGet (dictUpdate kvs (generate_device_ids r)) "telemetry.machineId" =
      some (JsonVal.str (bytesHex r.machineBytes)) ∧
    dictGet (dictUpdate kvs (generate_device_ids r)) "telemetry.macMachineId" =
      some (JsonVal.str (bytesHex r.macBytes)) ∧
    dictGet (dictUpdate kvs (generate_device_ids r)) "telemetry.devDeviceId" =
      some (JsonVal.str (uuid4String r.uuidBytes)) ∧
    (r.machineBytes.length = 32 → ∀ s : String,
      dictGet kvs "telemetry.machineId" = some (JsonVal.str s) →
      s.length ≠ 64 →
      dictGet (dictUpdate kvs (generate_device_ids r)) "telemetry.machineId" ≠
        some (JsonVal.str s)) := by
  have hmachine := dictGet_update_ids_machine kvs r
  refine ⟨?_, fun k h1 h2 h3 => dictGet_update_ids_other kvs r k h1 h2 h3,
    hmachine, dictGet_update_ids_mac kvs r, dictGet_update_ids_dev kvs r, ?_⟩
  · obtain ⟨base, hbase⟩ := get_storage_file_shape env p hres
    subst hbase
    simp only [reset_windsurf_id, hres] at hok ⊢
    cases hfs : fs (base ++ storageSuffix) with
    | none =>
      have h3 : JsonVal.obj [] = JsonVal.obj kvs := by
        have h2 := hobj
        unfold load_storage at h2
        rw [hfs] at h2
        exact h2
      injection h3 with h4
      subst h4
      simp [hfs, load_storage, save_storage, FS.set_self]
    | some c =>
      have hother : ∀ c2 : Content,
          (fs.set (backupPathOf (base ++ storageSuffix) ts) c2)
            (base ++ storageSuffix) = fs (base ++ storageSuffix) :=
        fun c2 => FS.set_other fs _ _ c2 (Ne.symm (backupPathOf_storage_ne base ts))
      cases c with
      | json v =>
        have hv : v = JsonVal.obj kvs := by
          have h2 := hobj
          unfold load_storage at h2
          rw [hfs] at h2
          exact h2
        subst hv
        cases wb with
        | false => simp [hfs, load_storage, save_storage, FS.set_self]
        | true =>
          cases co with
          | false => simp [hfs, backup_file] at hok
          | true =>
            simp [hfs, backup_file, load_storage, save_storage, hother,
              FS.set_self]
      | invalid s =>
        have h3 : JsonVal.obj [] = JsonVal.obj kvs := by
          have h2 := hobj
          unfold load_storage at h2
          rw [hfs] at h2
          exact h2
        injection h3 with h4
        subst h4
        cases wb with
        | false => simp [hfs, load_storage, save_storage, FS.set_self]
        | true =>
          cases co with
          | false => simp [hfs, backup_file] at hok
          | true =>
            simp [hfs, backup_file, load_storage, save_storage, hother,
              FS.set_self]
  · intro hlen s hs hslen heq
    rw [hmachine] at heq
    injection heq with h1
    injection h1 with h2
    apply hslen
    rw [← h2, bytesHex_length, hlen]

/-- Witness for C3: a concrete successful reset over the document
`{"foo": "bar", "telemetry.machineId": "old"}`. -/
theorem reset_merge_frame_witness :
    (reset_windsurf_id envTest fsObjTest false true "20250101_000000"
        urandomTest).1 storageTest =
      some (Content.json (JsonVal.obj (dictUpdate
        [("foo", JsonVal.str "bar"), ("telemetry.machineId", JsonVal.str "old")]
        (generate_device_ids urandomTest)))) ∧
    (∀ k, k ≠ "telemetry.machineId" → k ≠ "telemetry.macMachineId" →
      k ≠ "telemetry.devDeviceId" →
      dictGet (dictUpdate
        [("foo", JsonVal.str "bar"), ("telemetry.machineId", JsonVal.str "old")]
        (generate_device_ids urandomTest)) k =
      dictGet
        [("foo", JsonVal.str "bar"), ("telemetry.machineId", JsonVal.str "old")]
        k) ∧
    dictGet (dictUpdate
      [("foo", JsonVal.str "bar"), ("telemetry.machineId", JsonVal.str "old")]
      (generate_device_ids urandomTest)) "telemetry.machineId" =
      some (JsonVal.str (bytesHex urandomTest.machineBytes)) ∧
    dictGet (dictUpdate
      [("foo", JsonVal.str "bar"), ("telemetry.machineId", JsonVal.str "old")]
      (generate_device_ids urandomTest)) "telemetry.macMachineId" =
      some (JsonVal.str (bytesHex urandomTest.macBytes)) ∧
    dictGet (dictUpdate
      [("foo", JsonVal.str "bar"), ("telemetry.machineId", JsonVal.str "old")]
      (generate_device_ids urandomTest)) "telemetry.devDeviceId" =
      some (JsonVal.str (uuid4String urandomTest.uuidBytes)) ∧
    (urandomTest.machineBytes.length = 32 → ∀ s : String,
      dictGet
        [("foo", JsonVal.str "bar"), ("telemetry.machineId", JsonVal.str "old")]
        "telemetry.machineId" = some (JsonVal.str s) →
      s.length ≠ 64 →
      dictGet (dictUpdate
        [("foo", JsonVal.str "bar"), ("telemetry.machineId", JsonVal.str "old")]
        (generate_device_ids urandomTest)) "telemetry.machineId" ≠
        some (JsonVal.str s)) :=
  reset_merge_frame envTest fsObjTest false true "20250101_000000" urandomTest
    storageTest
    [("foo", JsonVal.str "bar"), ("telemetry.machineId", JsonVal.str "old")]
    ⟨false, generate_device_ids urandomTest, true⟩ rfl rfl rfl

/-! ## Byte-level ConfigStore: `json.dump(data, f, indent=2)` and `json.load(f)`

The claims settled above use the `Content` abstraction of file bytes.  The
round-trip claim is about the serialisation itself, so here the two library
calls on src/reset.py lines 380-381 and 407-408 are modelled at the level
of the characters written to and read from the file:

* `json_dump` produces the exact text CPython's `json.dump(v, f, indent=2)`
  writes (default separators `","` / `": "`, two-space indentation, short
  backslash escapes inside strings).
* `json_load` is a recursive-descent parser for the JSON fragment the model
  can represent, following CPython's `json` scanner: the same whitespace
  set, literals, integers, strings with backslash escapes, arrays and
  objects, and rejection of trailing data.

The model does not represent floats or `\uXXXX` escapes, so `valOK` marks
the documents on which `json_dump` agrees character-for-character with
CPython (strings drawn from printable ASCII plus the short-escaped control
characters) and on which `json.load` returns the document itself (object
key lists without duplicates — a CPython dict never has any). -/

/-- The JSON whitespace characters (CPython `json`: space, tab, LF, CR). -/
def isJsonWs (c : Char) : Bool :=
  c.toNat = 32 || c.toNat = 9 || c.toNat = 10 || c.toNat = 13

/-- Consume leading JSON whitespace. -/
def skipWs : List Char → List Char
  | [] => []
  | c :: cs => if isJsonWs c then skipWs cs else c :: cs

/-- The `indent`-many spaces CPython emits before an item. -/
def indentChars (n : Nat) : List Char := List.replicate n ' '

/-- An ASCII decimal digit. -/
def isDig (c : Char) : Bool := 48 ≤ c.toNat && c.toNat ≤ 57

/-- The input does not continue with a digit (so a maximal-munch number
parse stops exactly here). -/
def notDigitStart : List Char → Bool
  | [] => true
  | c :: _ => !(isDig c)

/-- CPython's string escaping for the characters the model covers: `"` and
backslash, plus the short escapes for LF, TAB, CR, BS and FF; every other
covered character is emitted verbatim. -/
def escChar (c : Char) : List Char :=
  if c = '"' then ['\\', '"']
  else if c = '\\' then ['\\', '\\']
  else if c = '\n' then ['\\', 'n']
  else if c = '\t' then ['\\', 't']
  else if c = '\r' then ['\\', 'r']
  else if c.toNat = 8 then ['\\', 'b']
  else if c.toNat = 12 then ['\\', 'f']
  else [c]

/-- Escape every character of a string body. -/
def escChars (cs : List Char) : List Char := (cs.map escChar).flatten

/-- A serialised JSON string literal. -/
def dumpString (s : String) : List Char := '"' :: (escChars s.data ++ ['"'])

/-- Digit emission loop: prepend the digits of `n` to `acc`, most
significant first.  The fuel argument only bounds the recursion and is
always sufficient (`n` itself bounds the number of digits). -/
def natCharsAux : Nat → Nat → List Char → List Char
  | 0, _, acc => acc
  | fuel + 1, n, acc =>
    if n < 10 then Nat.digitChar n :: acc
    else natCharsAux fuel (n / 10) (Nat.digitChar (n % 10) :: acc)

/-- The decimal digits of a natural number, most significant first. -/
def natChars (n : Nat) : List Char := natCharsAux (n + 1) n []

/-- The decimal rendering of an integer, as `int.__repr__` prints it. -/
def intChars (n : Int) : List Char :=
  if n < 0 then '-' :: natChars (-n).toNat else natChars n.toNat

mutual

/-- The characters `json.dump(v, f, indent=2)` writes for value `v` placed
at indentation level `ind` (CPython `json/encoder.py` with the default
separators `","` and `": "`). -/
def dumpVal (ind : Nat) : JsonVal → List Char
  | .str s => dumpString s
  | .num n => intChars n
  | .bool true => ['t', 'r', 'u', 'e']
  | .bool false => ['f', 'a', 'l', 's', 'e']
  | .null => ['n', 'u', 'l', 'l']
  | .arr [] => ['[', ']']
  | .arr (x :: xs) =>
    '[' :: '\n' :: (indentChars (ind + 2) ++ dumpVal (ind + 2) x ++
      dumpArrItems (ind + 2) xs ++ '\n' :: (indentChars ind ++ [']']))
  | .obj [] => ['{', '}']
  | .obj (m :: ms) =>
    '{' :: '\n' :: (indentChars (ind + 2) ++ dumpString m.1 ++ ':' :: ' ' ::
      (dumpVal (ind + 2) m.2 ++ dumpMembers (ind + 2) ms ++
        '\n' :: (indentChars ind ++ ['}'])))

/-- The second and later array items, each preceded by `",\n"` and the
item indentation. -/
def dumpArrItems (ind : Nat) : List JsonVal → List Char
  | [] => []
  | x :: xs =>
    ',' :: '\n' :: (indentChars ind ++ dumpVal ind x ++ dumpArrItems ind xs)

/-- The second and later object members, each preceded by `",\n"`, the
member indentation, the serialised key and `": "`. -/
def dumpMembers (ind : Nat) : List (String × JsonVal) → List Char
  | [] => []
  | m :: ms =>
    ',' :: '\n' :: (indentChars ind ++ dumpString m.1 ++ ':' :: ' ' ::
      (dumpVal ind m.2 ++ dumpMembers ind ms))

end

/-- The text `json.dump(v, f, indent=2)` writes to the file. -/
def json_dump (v : JsonVal) : String := ⟨dumpVal 0 v⟩

/-- Decoding of a backslash escape (CPython `json/decoder.py` BACKSLASH
table, without the `\uXXXX` form). -/
def escDecode (c : Char) : Option Char :=
  if c = '"' then some '"'
  else if c = '\\' then some '\\'
  else if c = '/' then some '/'
  else if c = 'n' then some '\n'
  else if c = 't' then some '\t'
  else if c = 'r' then some '\r'
  else if c = 'b' then some (Char.ofNat 8)
  else if c = 'f' then some (Char.ofNat 12)
  else none

mutual

/-- Parse the body of a string literal after the opening quote, returning
the decoded characters and the input after the closing quote. -/
def parseStringChars : List Char → Option (List Char × List Char)
  | [] => none
  | c :: cs =>
    if c = '"' then some ([], cs)
    else if c = '\\' then parseEscaped cs
    else
      match parseStringChars cs with
      | some (s, r) => some (c :: s, r)
      | none => none

/-- Parse what follows a backslash inside a string literal. -/
def parseEscaped : List Char → Option (List Char × List Char)
  | [] => none
  | e :: cs =>
    match escDecode e, parseStringChars cs with
    | some d, some (s, r) => some (d :: s, r)
    | _, _ => none

end

/-- Split a maximal run of leading decimal digits off the input. -/
def takeDigits : List Char → List Char × List Char
  | [] => ([], [])
  | c :: cs =>
    if isDig c then
      let p := takeDigits cs
      (c :: p.1, p.2)
    else ([], c :: cs)

/-- The value of a digit run, most significant first. -/
def digitsToNat (ds : List Char) : Nat :=
  ds.foldl (fun a c => a * 10 + (c.toNat - 48)) 0

/-- Parse an optionally negated run of decimal digits (the integer
fragment of the JSON number grammar; floats are outside the model). -/
def parseNumber : List Char → Option (Int × List Char)
  | [] => none
  | c :: cs =>
    if c = '-' then
      match takeDigits cs with
      | (d :: ds, rest) => some (-(digitsToNat (d :: ds) : Int), rest)
      | ([], _) => none
    else
      match takeDigits (c :: cs) with
      | (d :: ds, rest) => some ((digitsToNat (d :: ds) : Int), rest)
      | ([], _) => none

mutual

/-- Parse one JSON value after optional whitespace, following CPython's
scanner; `fuel` bounds the call depth (`json_load` passes more than any
input can consume). -/
def parseVal : Nat → List Char → Option (JsonVal × List Char)
  | 0, _ => none
  | fuel + 1, cs =>
    match skipWs cs with
    | [] => none
    | c :: rest =>
      if isDig c || c = '-' then
        match parseNumber (c :: rest) with
        | some (n, r) => some (JsonVal.num n, r)
        | none => none
      else
        match c :: rest with
        | 'n' :: 'u' :: 'l' :: 'l' :: r => some (JsonVal.null, r)
        | 't' :: 'r' :: 'u' :: 'e' :: r => some (JsonVal.bool true, r)
        | 'f' :: 'a' :: 'l' :: 's' :: 'e' :: r => some (JsonVal.bool false, r)
        | '"' :: r =>
          (match parseStringChars r with
           | some (s, r2) => some (JsonVal.str ⟨s⟩, r2)
           | none => none)
        | '[' :: r =>
          (match skipWs r with
           | [] => none
           | c2 :: r2 =>
             if c2 = ']' then some (JsonVal.arr [], r2)
             else
               match parseVal fuel (c2 :: r2) with
               | some (x, r3) =>
                 (match parseArrTail fuel r3 with
                  | some (xs, r4) => some (JsonVal.arr (x :: xs), r4)
                  | none => none)
               | none => none)
        | '{' :: r =>
          (match skipWs r with
           | [] => none
           | c2 :: r2 =>
             if c2 = '}' then some (JsonVal.obj [], r2)
             else if c2 = '"' then
               match parseStringChars r2 with
               | some (k, r3) =>
                 (match skipWs r3 with
                  | ':' :: r4 =>
                    (match parseVal fuel r4 with
                     | some (v, r5) =>
                       (match parseObjTail fuel r5 with
                        | some (ms, r6) =>
                          some (JsonVal.obj ((⟨k⟩, v) :: ms), r6)
                        | none => none)
                     | none => none)
                  | _ => none)
               | none => none
             else none)
        | _ => none

/-- Parse the rest of an array after one element: a `]` closing it or a
`,` followed by the next element. -/
def parseArrTail : Nat → List Char → Option (List JsonVal × List Char)
  | 0, _ => none
  | fuel + 1, cs =>
    match skipWs cs with
    | ']' :: rest => some ([], rest)
    | ',' :: rest =>
      (match parseVal fuel rest with
       | some (x, r2) =>
         (match parseArrTail fuel r2 with
          | some (xs, r3) => some (x :: xs, r3)
          | none => none)
       | none => none)
    | _ => none

/-- Parse the rest of an object after one member: a `}` closing it or a
`,` followed by the next key, `:` and value. -/
def parseObjTail : Nat → List Char → Option (List (String × JsonVal) × List Char)
  | 0, _ => none
  | fuel + 1, cs =>
    match skipWs cs with
    | '}' :: rest => some ([], rest)
    | ',' :: rest =>
      (match skipWs rest with
       | '"' :: r2 =>
         (match parseStringChars r2 with
          | some (k, r3) =>
            (match skipWs r3 with
             | ':' :: r4 =>
               (match parseVal fuel r4 with
                | some (v, r5) =>
                  (match parseObjTail fuel r5 with
                   | some (ms, r6) => some ((⟨k⟩, v) :: ms, r6)
                   | none => none)
                | none => none)
             | _ => none)
          | none => none)
       | _ => none)
    | _ => none

end

/-- The document `json.load(f)` yields from the file text `s`, or `none`
where `json.load` raises: parse one value and require only whitespace to
follow.  Every nesting level consumes at least one input character, so
`s.length + 1` fuel never runs out first. -/
def json_load (s : String) : Option JsonVal :=
  match parseVal (s.length + 1) s.data with
  | some (v, rest) => if skipWs rest = [] then some v else none
  | none => none

/-- The string characters on which `escChar` agrees with CPython's
escaping: printable ASCII plus the five short-escaped controls (everything
else CPython turns into a `\uXXXX` escape, outside the model). -/
def strOK (s : String) : Bool :=
  s.data.all (fun c => (32 ≤ c.toNat && c.toNat ≤ 126) || c.toNat = 10 ||
    c.toNat = 9 || c.toNat = 13 || c.toNat = 8 || c.toNat = 12)

/-- No two members share a key — always true of a document that came from
a Python dict, and exactly the condition under which `json.load` (whose
dicts keep the last duplicate) returns the member list unchanged. -/
def noDupKeys : List (String × JsonVal) → Bool
  | [] => true
  | m :: ms => !(ms.any (fun m2 => m2.1 = m.1)) && noDupKeys ms

mutual

/-- A document the byte-level model is faithful for: string bodies and
keys within `strOK`, and object member lists without duplicate keys. -/
def valOK : JsonVal → Bool
  | .str s => strOK s
  | .num _ => true
  | .bool _ => true
  | .null => true
  | .arr xs => valOKList xs
  | .obj ms => noDupKeys ms && valOKMembers ms

/-- `valOK` on every element of an array. -/
def valOKList : List JsonVal → Bool
  | [] => true
  | x :: xs => valOK x && valOKList xs

/-- `strOK` keys and `valOK` values on every member of an object. -/
def valOKMembers : List (String × JsonVal) → Bool
  | [] => true
  | m :: ms => strOK m.1 && valOK m.2 && valOKMembers ms

end

mutual

/-- Call depth sufficient for `parseVal` on the serialisation of `v` (one
unit per value node and one per container separator). -/
def fuelFor : JsonVal → Nat
  | .arr xs => 1 + fuelForList xs
  | .obj ms => 1 + fuelForMembers ms
  | _ => 1

/-- Fuel for the items of an array tail. -/
def fuelForList : List JsonVal → Nat
  | [] => 0
  | x :: xs => 1 + fuelFor x + fuelForList xs

/-- Fuel for the members of an object tail. -/
def fuelForMembers : List (String × JsonVal) → Nat
  | [] => 0
  | m :: ms => 1 + fuelFor m.2 + fuelForMembers ms

end

/-- A file system holding raw file text (the byte-level refinement of
`FS`). -/
abbrev FSText := FilePath0 → Option String

/-- The save step at byte level (src/reset.py lines 407-408): write the
text `json.dump(v, f, indent=2)` produces. -/
def save_storage_text (fs : FSText) (p : FilePath0) (v : JsonVal) : FSText :=
  fun q => if q = p then some (json_dump v) else fs q

/-- The load step at byte level (src/reset.py lines 377-396): an absent
file yields the empty document, a file that `json.load` accepts yields its
document, and a `JSONDecodeError` is downgraded to the warning flag. -/
def load_storage_text (fs : FSText) (p : FilePath0) : JsonVal × Bool :=
  match fs p with
  | none => (JsonVal.obj [], false)
  | some s =>
    match json_load s with
    | some v => (v, false)
    | none => (JsonVal.obj [], true)

/-! ## Round-trip lemmas: whitespace, digits, numbers, strings -/

theorem skipWs_cons_not (c : Char) (cs : List Char) (h : isJsonWs c = false) :
    skipWs (c :: cs) = c :: cs := by
  simp [skipWs, h]

theorem skipWs_nl (cs : List Char) : skipWs ('\n' :: cs) = skipWs cs := rfl

theorem skipWs_indent (n : Nat) (cs : List Char) :
    skipWs (indentChars n ++ cs) = skipWs cs := by
  induction n with
  | zero => rfl
  | succ n ih =>
    have : indentChars (n + 1) ++ cs = ' ' :: (indentChars n ++ cs) := by
      simp [indentChars, List.replicate_succ]
    rw [this]
    exact ih

theorem parseVal_skip (fuel : Nat) (cs ds : List Char)
    (h : skipWs cs = skipWs ds) : parseVal fuel cs = parseVal fuel ds := by
  cases fuel with
  | zero => rfl
  | succ fuel => simp only [parseVal]; rw [h]

theorem parseArrTail_skip (fuel : Nat) (cs ds : List Char)
    (h : skipWs cs = skipWs ds) : parseArrTail fuel cs = parseArrTail fuel ds := by
  cases fuel with
  | zero => rfl
  | succ fuel => simp only [parseArrTail]; rw [h]

theorem parseObjTail_skip (fuel : Nat) (cs ds : List Char)
    (h : skipWs cs = skipWs ds) : parseObjTail fuel cs = parseObjTail fuel ds := by
  cases fuel with
  | zero => rfl
  | succ fuel => simp only [parseObjTail]; rw [h]

theorem digitChar_toNat (n : Nat) (h : n < 10) :
    (Nat.digitChar n).toNat = 48 + n := by
  interval_cases n <;> rfl

theorem isDig_digitChar (n : Nat) (h : n < 10) :
    isDig (Nat.digitChar n) = true := by
  interval_cases n <;> rfl

theorem isDig_toNat (c : Char) (h : isDig c = true) :
    48 ≤ c.toNat ∧ c.toNat ≤ 57 := by
  simpa [isDig] using h

theorem isDig_not_ws (c : Char) (h : isDig c = true) : isJsonWs c = false := by
  obtain ⟨h1, h2⟩ := isDig_toNat c h
  simp [isJsonWs]
  omega

theorem isDig_ne_minus (c : Char) (h : isDig c = true) : c ≠ '-' := by
  intro he
  rw [he] at h
  exact absurd h (by decide)

theorem isDig_ne_rbracket (c : Char) (h : isDig c = true) : c ≠ ']' := by
  intro he
  rw [he] at h
  exact absurd h (by decide)

theorem natCharsAux_spec : ∀ fuel n acc, n < fuel →
    ∃ ds, natCharsAux fuel n acc = ds ++ acc ∧ ds ≠ [] ∧
      (∀ c ∈ ds, isDig c = true) ∧
      ∀ a : Nat, List.foldl (fun a c => a * 10 + (c.toNat - 48)) a ds =
        a * 10 ^ ds.length + n := by
  intro fuel
  induction fuel with
  | zero => intro n acc h; omega
  | succ fuel ih =>
    intro n acc h
    by_cases h10 : n < 10
    · refine ⟨[Nat.digitChar n], by simp [natCharsAux, h10], by simp, ?_, ?_⟩
      · intro c hc
        simp at hc
        subst hc
        exact isDig_digitChar n h10
      · intro a
        simp [List.foldl, digitChar_toNat n h10]
        try omega
    · have hrec : n / 10 < fuel := by omega
      obtain ⟨ds, hds, hne, hdig, hfold⟩ :=
        ih (n / 10) (Nat.digitChar (n % 10) :: acc) hrec
      refine ⟨ds ++ [Nat.digitChar (n % 10)], ?_, by simp, ?_, ?_⟩
      · simp only [natCharsAux, if_neg h10]
        rw [hds, List.append_assoc, List.singleton_append]
      · intro c hc
        rcases List.mem_append.mp hc with hc | hc
        · exact hdig c hc
        · simp at hc
          subst hc
          exact isDig_digitChar _ (by omega)
      · intro a
        rw [List.foldl_append, hfold a]
        have hlen : (ds ++ [Nat.digitChar (n % 10)]).length = ds.length + 1 := by
          simp
        rw [hlen]
        simp [List.foldl, digitChar_toNat (n % 10) (by omega)]
        have hpow : 10 ^ (ds.length + 1) = 10 ^ ds.length * 10 := by
          rw [pow_succ]
        rw [hpow]
        have hsplit : (a * 10 ^ ds.length + n / 10) * 10 + n % 10 =
            a * (10 ^ ds.length * 10) + (n / 10 * 10 + n % 10) := by ring
        rw [hsplit]
        have hmod : n / 10 * 10 + n % 10 = n := by omega
        rw [hmod]

theorem natChars_spec (n : Nat) :
    natChars n ≠ [] ∧ (∀ c ∈ natChars n, isDig c = true) ∧
      digitsToNat (natChars n) = n := by
  obtain ⟨ds, hds, hne, hdig, hfold⟩ := natCharsAux_spec (n + 1) n [] (by omega)
  rw [List.append_nil] at hds
  unfold natChars
  rw [hds]
  refine ⟨hne, hdig, ?_⟩
  unfold digitsToNat
  rw [hfold 0]
  simp

theorem takeDigits_append (ds rest : List Char)
    (hd : ∀ c ∈ ds, isDig c = true) (hr : notDigitStart rest = true) :
    takeDigits (ds ++ rest) = (ds, rest) := by
  induction ds with
  | nil =>
    cases rest with
    | nil => rfl
    | cons c r =>
      have hc : isDig c = false := by simpa [notDigitStart] using hr
      simp [takeDigits, hc]
  | cons d ds ih =>
    have hdd : isDig d = true := hd d (by simp)
    have ih2 := ih (fun c hc => hd c (by simp [hc]))
    simp [takeDigits, hdd, ih2]

theorem parseNumber_natChars (n : Nat) (rest : List Char)
    (hr : notDigitStart rest = true) :
    parseNumber (natChars n ++ rest) = some ((n : Int), rest) := by
  obtain ⟨hne, hdig, hval⟩ := natChars_spec n
  have htd := takeDigits_append (natChars n) rest hdig hr
  cases hn : natChars n with
  | nil => exact absurd hn hne
  | cons d ds =>
    rw [hn] at htd hval
    have hd : isDig d = true := by
      rw [hn] at hdig
      exact hdig d (by simp)
    have hdm : ¬ d = '-' := isDig_ne_minus d hd
    simp only [List.cons_append, parseNumber, if_neg hdm]
    rw [show (d :: (ds ++ rest)) = ((d :: ds) ++ rest) from rfl, htd]
    show some ((digitsToNat (d :: ds) : Int), rest) = some ((n : Int), rest)
    rw [hval]

theorem parseNumber_intChars (n : Int) (rest : List Char)
    (hr : notDigitStart rest = true) :
    parseNumber (intChars n ++ rest) = some (n, rest) := by
  by_cases hneg : n < 0
  · obtain ⟨hne, hdig, hval⟩ := natChars_spec (-n).toNat
    have htd := takeDigits_append (natChars (-n).toNat) rest hdig hr
    simp only [intChars, if_pos hneg, List.cons_append]
    cases hn : natChars (-n).toNat with
    | nil => exact absurd hn hne
    | cons d ds =>
      rw [hn] at htd hval
      simp only [parseNumber, if_pos rfl]
      rw [htd]
      show some (-(digitsToNat (d :: ds) : Int), rest) = some (n, rest)
      rw [hval]
      have hcast : -(((-n).toNat : Nat) : Int) = n := by omega
      rw [hcast]
  · simp only [intChars, if_neg hneg]
    rw [parseNumber_natChars _ rest hr]
    have hcast : ((n.toNat : Nat) : Int) = n := Int.toNat_of_nonneg (by omega)
    rw [hcast]

theorem parseStringChars_quote (X : List Char) :
    parseStringChars ('"' :: X) = some ([], X) := by
  simp [parseStringChars]

theorem parseStringChars_plain (c : Char) (X : List Char) (h1 : ¬ c = '"')
    (h2 : ¬ c = '\\') :
    parseStringChars (c :: X) =
      (match parseStringChars X with
       | some (s, r) => some (c :: s, r)
       | none => none) := by
  simp only [parseStringChars, if_neg h1, if_neg h2]

theorem parseEscaped_step (e d : Char) (X : List Char)
    (h : escDecode e = some d) :
    parseStringChars ('\\' :: e :: X) =
      (match parseStringChars X with
       | some (s, r) => some (d :: s, r)
       | none => none) := by
  have hq : ¬ ('\\' : Char) = '"' := by decide
  have hstep : parseStringChars ('\\' :: e :: X) = parseEscaped (e :: X) := by
    simp [parseStringChars, hq]
  rw [hstep]
  simp only [parseEscaped, h]
  cases hp : parseStringChars X with
  | none => rfl
  | some pr =>
    obtain ⟨s, r⟩ := pr
    rfl

theorem parseStringChars_esc (s : List Char) (rest : List Char) :
    parseStringChars (escChars s ++ '"' :: rest) = some (s, rest) := by
  induction s with
  | nil =>
    rw [show escChars [] = [] from rfl, List.nil_append, parseStringChars_quote]
  | cons c cs ih =>
    have hesc : escChars (c :: cs) = escChar c ++ escChars cs := by
      simp [escChars]
    rw [hesc, List.append_assoc]
    by_cases h1 : c = '"'
    · rw [h1, show escChar '"' = ['\\', '"'] from rfl]
      simp only [List.cons_append, List.nil_append]
      rw [parseEscaped_step '"' '"' _ (by decide), ih]
    · by_cases h2 : c = '\\'
      · rw [h2, show escChar '\\' = ['\\', '\\'] from rfl]
        simp only [List.cons_append, List.nil_append]
        rw [parseEscaped_step '\\' '\\' _ (by decide), ih]
      · by_cases h3 : c = '\n'
        · rw [h3, show escChar '\n' = ['\\', 'n'] from rfl]
          simp only [List.cons_append, List.nil_append]
          rw [parseEscaped_step 'n' '\n' _ (by decide), ih]
        · by_cases h4 : c = '\t'
          · rw [h4, show escChar '\t' = ['\\', 't'] from rfl]
            simp only [List.cons_append, List.nil_append]
            rw [parseEscaped_step 't' '\t' _ (by decide), ih]
          · by_cases h5 : c = '\r'
            · rw [h5, show escChar '\r' = ['\\', 'r'] from rfl]
              simp only [List.cons_append, List.nil_append]
              rw [parseEscaped_step 'r' '\r' _ (by decide), ih]
            · by_cases h6 : c.toNat = 8
              · have hc : c = Char.ofNat 8 := by
                  rw [← h6, Char.ofNat_toNat]
                have hesc2 : escChar c = ['\\', 'b'] := by
                  simp [escChar, h1, h2, h3, h4, h5, h6]
                rw [hesc2]
                simp only [List.cons_append, List.nil_append]
                rw [parseEscaped_step 'b' (Char.ofNat 8) _ (by decide), ih, hc]
              · by_cases h7 : c.toNat = 12
                · have hc : c = Char.ofNat 12 := by
                    rw [← h7, Char.ofNat_toNat]
                  have hesc2 : escChar c = ['\\', 'f'] := by
                    simp [escChar, h1, h2, h3, h4, h5, h6, h7]
                  rw [hesc2]
                  simp only [List.cons_append, List.nil_append]
                  rw [parseEscaped_step 'f' (Char.ofNat 12) _ (by decide), ih, hc]
                · have hesc2 : escChar c = [c] := by
                    simp [escChar, h1, h2, h3, h4, h5, h6, h7]
                  rw [hesc2]
                  simp only [List.cons_append, List.nil_append]
                  rw [parseStringChars_plain c _ h1 h2, ih]

/-! ## Shape of serialised values and single-step parser reductions -/

theorem dumpVal_head (ind : Nat) (v : JsonVal) :
    ∃ c cs, dumpVal ind v = c :: cs ∧ isJsonWs c = false ∧ c ≠ ']' := by
  cases v with
  | str s =>
    exact ⟨'"', escChars s.data ++ ['"'], rfl, by decide, by decide⟩
  | num n =>
    by_cases hneg : n < 0
    · refine ⟨'-', natChars (-n).toNat, ?_, by decide, by decide⟩
      simp only [dumpVal]
      simp only [intChars, if_pos hneg]
    · obtain ⟨hne, hdig, _⟩ := natChars_spec n.toNat
      cases hn : natChars n.toNat with
      | nil => exact absurd hn hne
      | cons d ds =>
        have hd : isDig d = true := hdig d (by rw [hn]; simp)
        refine ⟨d, ds, ?_, isDig_not_ws d hd, isDig_ne_rbracket d hd⟩
        simp only [dumpVal]
        simp only [intChars, if_neg hneg]
        exact hn
  | bool b =>
    cases b with
    | false => exact ⟨'f', ['a', 'l', 's', 'e'], rfl, by decide, by decide⟩
    | true => exact ⟨'t', ['r', 'u', 'e'], rfl, by decide, by decide⟩
  | null => exact ⟨'n', ['u', 'l', 'l'], rfl, by decide, by decide⟩
  | arr xs =>
    cases xs with
    | nil => exact ⟨'[', [']'], rfl, by decide, by decide⟩
    | cons x xs =>
      exact ⟨'[', '\n' :: (indentChars (ind + 2) ++ dumpVal (ind + 2) x ++
        dumpArrItems (ind + 2) xs ++ '\n' :: (indentChars ind ++ [']'])),
        rfl, by decide, by decide⟩
  | obj ms =>
    cases ms with
    | nil => exact ⟨'{', ['}'], rfl, by decide, by decide⟩
    | cons m ms =>
      exact ⟨'{', '\n' :: (indentChars (ind + 2) ++ dumpString m.1 ++ ':' :: ' ' ::
        (dumpVal (ind + 2) m.2 ++ dumpMembers (ind + 2) ms ++
          '\n' :: (indentChars ind ++ ['}']))),
        rfl, by decide, by decide⟩

theorem parseVal_null (fuel : Nat) (cs : List Char) :
    parseVal (fuel + 1) ('n' :: 'u' :: 'l' :: 'l' :: cs) =
      some (JsonVal.null, cs) := rfl

theorem parseVal_true (fuel : Nat) (cs : List Char) :
    parseVal (fuel + 1) ('t' :: 'r' :: 'u' :: 'e' :: cs) =
      some (JsonVal.bool true, cs) := rfl

theorem parseVal_false (fuel : Nat) (cs : List Char) :
    parseVal (fuel + 1) ('f' :: 'a' :: 'l' :: 's' :: 'e' :: cs) =
      some (JsonVal.bool false, cs) := rfl

theorem parseVal_quote (fuel : Nat) (cs : List Char) :
    parseVal (fuel + 1) ('"' :: cs) =
      (match parseStringChars cs with
       | some (s, r2) => some (JsonVal.str ⟨s⟩, r2)
       | none => none) := rfl

theorem parseVal_minus (fuel : Nat) (cs : List Char) :
    parseVal (fuel + 1) ('-' :: cs) =
      (match parseNumber ('-' :: cs) with
       | some (n, r) => some (JsonVal.num n, r)
       | none => none) := rfl

theorem parseVal_lbracket (fuel : Nat) (cs : List Char) :
    parseVal (fuel + 1) ('[' :: cs) =
      (match skipWs cs with
       | [] => none
       | c2 :: r2 =>
         if c2 = ']' then some (JsonVal.arr [], r2)
         else
           match parseVal fuel (c2 :: r2) with
           | some (x, r3) =>
             (match parseArrTail fuel r3 with
              | some (xs, r4) => some (JsonVal.arr (x :: xs), r4)
              | none => none)
           | none => none) := rfl

theorem parseVal_lbrace (fuel : Nat) (cs : List Char) :
    parseVal (fuel + 1) ('{' :: cs) =
      (match skipWs cs with
       | [] => none
       | c2 :: r2 =>
         if c2 = '}' then some (JsonVal.obj [], r2)
         else if c2 = '"' then
           match parseStringChars r2 with
           | some (k, r3) =>
             (match skipWs r3 with
              | ':' :: r4 =>
                (match parseVal fuel r4 with
                 | some (v, r5) =>
                   (match parseObjTail fuel r5 with
                    | some (ms, r6) => some (JsonVal.obj ((⟨k⟩, v) :: ms), r6)
                    | none => none)
                 | none => none)
              | _ => none)
           | none => none
         else none) := rfl

theorem parseVal_digit (fuel : Nat) (c : Char) (cs : List Char)
    (h : isDig c = true) :
    parseVal (fuel + 1) (c :: cs) =
      (match parseNumber (c :: cs) with
       | some (n, r) => some (JsonVal.num n, r)
       | none => none) := by
  have hws := isDig_not_ws c h
  simp only [parseVal]
  rw [skipWs_cons_not c cs hws]
  simp [h]

theorem parseArrTail_rb (fuel : Nat) (cs : List Char) :
    parseArrTail (fuel + 1) (']' :: cs) = some ([], cs) := rfl

theorem parseArrTail_comma (fuel : Nat) (cs : List Char) :
    parseArrTail (fuel + 1) (',' :: cs) =
      (match parseVal fuel cs with
       | some (x, r2) =>
         (match parseArrTail fuel r2 with
          | some (xs, r3) => some (x :: xs, r3)
          | none => none)
       | none => none) := rfl

theorem parseObjTail_rb (fuel : Nat) (cs : List Char) :
    parseObjTail (fuel + 1) ('}' :: cs) = some ([], cs) := rfl

theorem parseObjTail_comma (fuel : Nat) (cs : List Char) :
    parseObjTail (fuel + 1) (',' :: cs) =
      (match skipWs cs with
       | '"' :: r2 =>
         (match parseStringChars r2 with
          | some (k, r3) =>
            (match skipWs r3 with
             | ':' :: r4 =>
               (match parseVal fuel r4 with
                | some (v, r5) =>
                  (match parseObjTail fuel r5 with
                   | some (ms, r6) => some ((⟨k⟩, v) :: ms, r6)
                   | none => none)
                | none => none)
             | _ => none)
          | none => none)
       | _ => none) := rfl

theorem parseVal_str_cooked (fuel : Nat) (cs s2 r2 : List Char)
    (h : parseStringChars cs = some (s2, r2)) :
    parseVal (fuel + 1) ('"' :: cs) = some (JsonVal.str ⟨s2⟩, r2) := by
  rw [parseVal_quote, h]

theorem parseVal_minus_cooked (fuel : Nat) (cs : List Char) (n : Int)
    (r : List Char) (h : parseNumber ('-' :: cs) = some (n, r)) :
    parseVal (fuel + 1) ('-' :: cs) = some (JsonVal.num n, r) := by
  rw [parseVal_minus, h]

theorem parseVal_digit_cooked (fuel : Nat) (c : Char) (cs : List Char)
    (n : Int) (r : List Char) (hd : isDig c = true)
    (h : parseNumber (c :: cs) = some (n, r)) :
    parseVal (fuel + 1) (c :: cs) = some (JsonVal.num n, r) := by
  rw [parseVal_digit fuel c cs hd, h]

theorem parseVal_arr_nil (fuel : Nat) (cs r2 : List Char)
    (h1 : skipWs cs = ']' :: r2) :
    parseVal (fuel + 1) ('[' :: cs) = some (JsonVal.arr [], r2) := by
  rw [parseVal_lbracket, h1]
  exact rfl

theorem parseVal_arr_cons (fuel : Nat) (cs : List Char) (c2 : Char)
    (r2 r3 r4 : List Char) (x : JsonVal) (xs : List JsonVal)
    (h1 : skipWs cs = c2 :: r2) (hne : ¬ c2 = ']')
    (h2 : parseVal fuel (c2 :: r2) = some (x, r3))
    (h3 : parseArrTail fuel r3 = some (xs, r4)) :
    parseVal (fuel + 1) ('[' :: cs) = some (JsonVal.arr (x :: xs), r4) := by
  rw [parseVal_lbracket, h1]
  simp [hne, h2, h3]

theorem parseVal_obj_nil (fuel : Nat) (cs r2 : List Char)
    (h1 : skipWs cs = '}' :: r2) :
    parseVal (fuel + 1) ('{' :: cs) = some (JsonVal.obj [], r2) := by
  rw [parseVal_lbrace, h1]
  exact rfl

theorem parseVal_obj_cons (fuel : Nat) (cs r2 r3 r4 r5 r6 : List Char)
    (k : List Char) (v : JsonVal) (ms : List (String × JsonVal))
    (h1 : skipWs cs = '"' :: r2)
    (h2 : parseStringChars r2 = some (k, r3))
    (h3 : skipWs r3 = ':' :: r4)
    (h4 : parseVal fuel r4 = some (v, r5))
    (h5 : parseObjTail fuel r5 = some (ms, r6)) :
    parseVal (fuel + 1) ('{' :: cs) =
      some (JsonVal.obj ((⟨k⟩, v) :: ms), r6) := by
  rw [parseVal_lbrace, h1]
  simp [h2, h3, h4, h5]

theorem parseArrTail_nil_cooked (fuel : Nat) (cs0 r : List Char)
    (h0 : skipWs cs0 = ']' :: r) :
    parseArrTail (fuel + 1) cs0 = some ([], r) := by
  simp only [parseArrTail]
  rw [h0]
  exact rfl

theorem parseArrTail_cons_cooked (fuel : Nat) (cs0 cs1 r2 r3 : List Char)
    (x : JsonVal) (xs : List JsonVal)
    (h0 : skipWs cs0 = ',' :: cs1)
    (h1 : parseVal fuel cs1 = some (x, r2))
    (h2 : parseArrTail fuel r2 = some (xs, r3)) :
    parseArrTail (fuel + 1) cs0 = some (x :: xs, r3) := by
  simp only [parseArrTail]
  rw [h0]
  simp [h1, h2]

theorem parseObjTail_nil_cooked (fuel : Nat) (cs0 r : List Char)
    (h0 : skipWs cs0 = '}' :: r) :
    parseObjTail (fuel + 1) cs0 = some ([], r) := by
  simp only [parseObjTail]
  rw [h0]
  exact rfl

theorem parseObjTail_cons_cooked (fuel : Nat) (cs0 cs1 r2 r3 r4 r5 r6 : List Char)
    (k : List Char) (v : JsonVal) (ms : List (String × JsonVal))
    (h0 : skipWs cs0 = ',' :: cs1)
    (h1 : skipWs cs1 = '"' :: r2)
    (h2 : parseStringChars r2 = some (k, r3))
    (h3 : skipWs r3 = ':' :: r4)
    (h4 : parseVal fuel r4 = some (v, r5))
    (h5 : parseObjTail fuel r5 = some (ms, r6)) :
    parseObjTail (fuel + 1) cs0 = some ((⟨k⟩, v) :: ms, r6) := by
  simp only [parseObjTail]
  rw [h0]
  simp [h1, h2, h3, h4, h5]

theorem notDigitStart_items (ind : Nat) (xs : List JsonVal) (Y : List Char) :
    notDigitStart (dumpArrItems ind xs ++ '\n' :: Y) = true := by
  cases xs with
  | nil => rfl
  | cons x xs => rfl

theorem notDigitStart_members (ind : Nat) (ms : List (String × JsonVal))
    (Y : List Char) :
    notDigitStart (dumpMembers ind ms ++ '\n' :: Y) = true := by
  cases ms with
  | nil => rfl
  | cons m ms => rfl

theorem fuelFor_pos (v : JsonVal) : 1 ≤ fuelFor v := by
  cases v <;> simp [fuelFor]

theorem parse_dump_all : ∀ fuel : Nat,
    (∀ v : JsonVal, ∀ ind rest, fuelFor v ≤ fuel → notDigitStart rest = true →
       parseVal fuel (dumpVal ind v ++ rest) = some (v, rest)) ∧
    (∀ xs : List JsonVal, ∀ ind rest, fuelForList xs + 1 ≤ fuel →
       parseArrTail fuel (dumpArrItems (ind + 2) xs ++
         '\n' :: (indentChars ind ++ ']' :: rest)) = some (xs, rest)) ∧
    (∀ ms : List (String × JsonVal), ∀ ind rest, fuelForMembers ms + 1 ≤ fuel →
       parseObjTail fuel (dumpMembers (ind + 2) ms ++
         '\n' :: (indentChars ind ++ '}' :: rest)) = some (ms, rest)) := by
  intro fuel
  induction fuel with
  | zero =>
    refine ⟨?_, ?_, ?_⟩
    · intro v ind rest hf _
      have := fuelFor_pos v
      omega
    · intro xs ind rest hf
      omega
    · intro ms ind rest hf
      omega
  | succ fuel ih =>
    obtain ⟨ihV, ihA, ihO⟩ := ih
    refine ⟨?_, ?_, ?_⟩
    · intro v ind rest hf hrest
      cases v with
      | null =>
        simp only [dumpVal, List.cons_append]
        exact parseVal_null fuel rest
      | bool b =>
        cases b with
        | true =>
          simp only [dumpVal, List.cons_append]
          exact parseVal_true fuel rest
        | false =>
          simp only [dumpVal, List.cons_append]
          exact parseVal_false fuel rest
      | str s =>
        simp only [dumpVal, dumpString, List.cons_append, List.append_assoc,
          List.singleton_append]
        exact parseVal_str_cooked fuel _ s.data rest
          (parseStringChars_esc s.data rest)
      | num n =>
        simp only [dumpVal]
        by_cases hneg : n < 0
        · have heq : intChars n ++ rest = '-' :: (natChars (-n).toNat ++ rest) := by
            simp [intChars, if_pos hneg]
          rw [heq]
          refine parseVal_minus_cooked fuel _ n rest ?_
          rw [show ('-' :: (natChars (-n).toNat ++ rest)) = intChars n ++ rest
            from heq.symm]
          exact parseNumber_intChars n rest hrest
        · obtain ⟨hne, hdig, _⟩ := natChars_spec n.toNat
          cases hn : natChars n.toNat with
          | nil => exact absurd hn hne
          | cons d ds =>
            have hd : isDig d = true := hdig d (by rw [hn]; simp)
            have heq : intChars n ++ rest = d :: (ds ++ rest) := by
              simp [intChars, if_neg hneg, hn]
            rw [heq]
            refine parseVal_digit_cooked fuel d _ n rest hd ?_
            rw [show (d :: (ds ++ rest)) = intChars n ++ rest from heq.symm]
            exact parseNumber_intChars n rest hrest
      | arr xs =>
        cases xs with
        | nil =>
          simp only [dumpVal, List.cons_append]
          exact parseVal_arr_nil fuel _ rest
            (skipWs_cons_not ']' rest (by decide))
        | cons x xs =>
          simp only [fuelFor, fuelForList] at hf
          obtain ⟨c, cs2, hdump, hcws, hcne⟩ := dumpVal_head (ind + 2) x
          simp only [dumpVal, List.cons_append, List.append_assoc,
            List.singleton_append]
          set X := dumpArrItems (ind + 2) xs ++
            '\n' :: (indentChars ind ++ ']' :: rest) with hX
          have h1 : skipWs ('\n' :: (indentChars (ind + 2) ++
              (dumpVal (ind + 2) x ++ X))) = c :: (cs2 ++ X) := by
            rw [skipWs_nl, skipWs_indent, hdump, List.cons_append,
              skipWs_cons_not c (cs2 ++ X) hcws]
          have h2 : parseVal fuel (c :: (cs2 ++ X)) = some (x, X) := by
            rw [← List.cons_append, ← hdump]
            refine ihV x (ind + 2) X (by omega) ?_
            rw [hX]
            exact notDigitStart_items (ind + 2) xs _
          have h3 : parseArrTail fuel X = some (xs, rest) := by
            rw [hX]
            exact ihA xs ind rest (by omega)
          exact parseVal_arr_cons fuel _ c (cs2 ++ X) X rest x xs h1 hcne h2 h3
      | obj ms =>
        cases ms with
        | nil =>
          simp only [dumpVal, List.cons_append]
          exact parseVal_obj_nil fuel _ rest
            (skipWs_cons_not '}' rest (by decide))
        | cons m ms =>
          simp only [fuelFor, fuelForMembers] at hf
          simp only [dumpVal, dumpString, List.cons_append, List.append_assoc,
            List.singleton_append]
          set X := dumpMembers (ind + 2) ms ++
            '\n' :: (indentChars ind ++ '}' :: rest) with hX
          have h1 : skipWs ('\n' :: (indentChars (ind + 2) ++
              ('"' :: (escChars m.1.data ++
                ('"' :: (':' :: ' ' :: (dumpVal (ind + 2) m.2 ++ X))))))) =
              '"' :: (escChars m.1.data ++
                ('"' :: (':' :: ' ' :: (dumpVal (ind + 2) m.2 ++ X)))) := by
            rw [skipWs_nl, skipWs_indent, skipWs_cons_not _ _ (by decide)]
          have h2 : parseStringChars (escChars m.1.data ++
              ('"' :: (':' :: ' ' :: (dumpVal (ind + 2) m.2 ++ X)))) =
              some (m.1.data, ':' :: ' ' :: (dumpVal (ind + 2) m.2 ++ X)) :=
            parseStringChars_esc m.1.data _
          have h3 : skipWs (':' :: ' ' :: (dumpVal (ind + 2) m.2 ++ X)) =
              ':' :: (' ' :: (dumpVal (ind + 2) m.2 ++ X)) :=
            skipWs_cons_not _ _ (by decide)
          have h4 : parseVal fuel (' ' :: (dumpVal (ind + 2) m.2 ++ X)) =
              some (m.2, X) := by
            rw [parseVal_skip fuel (' ' :: (dumpVal (ind + 2) m.2 ++ X))
              (dumpVal (ind + 2) m.2 ++ X) rfl]
            refine ihV m.2 (ind + 2) X (by omega) ?_
            rw [hX]
            exact notDigitStart_members (ind + 2) ms _
          have h5 : parseObjTail fuel X = some (ms, rest) := by
            rw [hX]
            exact ihO ms ind rest (by omega)
          exact parseVal_obj_cons fuel _ _ _ _ _ _ m.1.data m.2 ms h1 h2 h3 h4 h5
    · intro xs ind rest hf
      cases xs with
      | nil =>
        simp only [dumpArrItems, List.nil_append]
        refine parseArrTail_nil_cooked fuel _ rest ?_
        rw [skipWs_nl, skipWs_indent, skipWs_cons_not _ _ (by decide)]
      | cons y ys =>
        simp only [fuelForList] at hf
        simp only [dumpArrItems, List.cons_append, List.append_assoc,
          List.singleton_append]
        set X := dumpArrItems (ind + 2) ys ++
          '\n' :: (indentChars ind ++ ']' :: rest) with hX
        have h0 : skipWs (',' :: ('\n' :: (indentChars (ind + 2) ++
            (dumpVal (ind + 2) y ++ X)))) =
            ',' :: ('\n' :: (indentChars (ind + 2) ++
              (dumpVal (ind + 2) y ++ X))) :=
          skipWs_cons_not _ _ (by decide)
        have h1 : parseVal fuel ('\n' :: (indentChars (ind + 2) ++
            (dumpVal (ind + 2) y ++ X))) = some (y, X) := by
          rw [parseVal_skip fuel _ (dumpVal (ind + 2) y ++ X)
            (by rw [skipWs_nl, skipWs_indent])]
          refine ihV y (ind + 2) X (by omega) ?_
          rw [hX]
          exact notDigitStart_items (ind + 2) ys _
        have h2 : parseArrTail fuel X = some (ys, rest) := by
          rw [hX]
          exact ihA ys ind rest (by omega)
        exact parseArrTail_cons_cooked fuel _ _ X rest y ys h0 h1 h2
    · intro ms ind rest hf
      cases ms with
      | nil =>
        simp only [dumpMembers, List.nil_append]
        refine parseObjTail_nil_cooked fuel _ rest ?_
        rw [skipWs_nl, skipWs_indent, skipWs_cons_not _ _ (by decide)]
      | cons m ms =>
        simp only [fuelForMembers] at hf
        simp only [dumpMembers, dumpString, List.cons_append, List.append_assoc,
          List.singleton_append]
        set X := dumpMembers (ind + 2) ms ++
          '\n' :: (indentChars ind ++ '}' :: rest) with hX
        have h0 : skipWs (',' :: ('\n' :: (indentChars (ind + 2) ++
            ('"' :: (escChars m.1.data ++
              ('"' :: (':' :: ' ' :: (dumpVal (ind + 2) m.2 ++ X)))))))) =
            ',' :: ('\n' :: (indentChars (ind + 2) ++
              ('"' :: (escChars m.1.data ++
                ('"' :: (':' :: ' ' :: (dumpVal (ind + 2) m.2 ++ X))))))) :=
          skipWs_cons_not _ _ (by decide)
        have h1 : skipWs ('\n' :: (indentChars (ind + 2) ++
            ('"' :: (escChars m.1.data ++
              ('"' :: (':' :: ' ' :: (dumpVal (ind + 2) m.2 ++ X))))))) =
            '"' :: (escChars m.1.data ++
              ('"' :: (':' :: ' ' :: (dumpVal (ind + 2) m.2 ++ X)))) := by
          rw [skipWs_nl, skipWs_indent, skipWs_cons_not _ _ (by decide)]
        have h2 : parseStringChars (escChars m.1.data ++
            ('"' :: (':' :: ' ' :: (dumpVal (ind + 2) m.2 ++ X)))) =
            some (m.1.data, ':' :: ' ' :: (dumpVal (ind + 2) m.2 ++ X)) :=
          parseStringChars_esc m.1.data _
        have h3 : skipWs (':' :: ' ' :: (dumpVal (ind + 2) m.2 ++ X)) =
            ':' :: (' ' :: (dumpVal (ind + 2) m.2 ++ X)) :=
          skipWs_cons_not _ _ (by decide)
        have h4 : parseVal fuel (' ' :: (dumpVal (ind + 2) m.2 ++ X)) =
            some (m.2, X) := by
          rw [parseVal_skip fuel (' ' :: (dumpVal (ind + 2) m.2 ++ X))
            (dumpVal (ind + 2) m.2 ++ X) rfl]
          refine ihV m.2 (ind + 2) X (by omega) ?_
          rw [hX]
          exact notDigitStart_members (ind + 2) ms _
        have h5 : parseObjTail fuel X = some (ms, rest) := by
          rw [hX]
          exact ihO ms ind rest (by omega)
        exact parseObjTail_cons_cooked fuel _ _ _ _ _ _ _ m.1.data m.2 ms
          h0 h1 h2 h3 h4 h5

theorem fuelForList_le_items_of (N : Nat)
    (ihAll : ∀ w : JsonVal, sizeOf w ≤ N → ∀ ind,
      fuelFor w ≤ (dumpVal ind w).length) :
    ∀ xs : List JsonVal, (∀ x ∈ xs, sizeOf x ≤ N) → ∀ ind,
      fuelForList xs ≤ (dumpArrItems ind xs).length := by
  intro xs
  induction xs with
  | nil =>
    intro _ ind
    simp [fuelForList, dumpArrItems]
  | cons x xs ih =>
    intro hmem ind
    have h1 := ihAll x (hmem x (by simp)) ind
    have h2 := ih (fun y hy => hmem y (by simp [hy])) ind
    simp only [fuelForList, dumpArrItems, List.length_cons, List.length_append,
      indentChars, List.length_replicate]
    omega

theorem fuelForMembers_le_members_of (N : Nat)
    (ihAll : ∀ w : JsonVal, sizeOf w ≤ N → ∀ ind,
      fuelFor w ≤ (dumpVal ind w).length) :
    ∀ ms : List (String × JsonVal), (∀ m ∈ ms, sizeOf m.2 ≤ N) → ∀ ind,
      fuelForMembers ms ≤ (dumpMembers ind ms).length := by
  intro ms
  induction ms with
  | nil =>
    intro _ ind
    simp [fuelForMembers, dumpMembers]
  | cons m ms ih =>
    intro hmem ind
    have h1 := ihAll m.2 (hmem m (by simp)) ind
    have h2 := ih (fun y hy => hmem y (by simp [hy])) ind
    simp only [fuelForMembers, dumpMembers, List.length_cons, List.length_append,
      indentChars, List.length_replicate]
    omega

theorem fuelFor_le_dumpLen : ∀ (N : Nat) (v : JsonVal), sizeOf v ≤ N →
    ∀ ind, fuelFor v ≤ (dumpVal ind v).length := by
  intro N
  induction N with
  | zero =>
    intro v hv
    exfalso
    cases v <;> simp at hv
  | succ N ihN =>
    intro v hv ind
    cases v with
    | str s => simp [fuelFor, dumpVal, dumpString]
    | num n =>
      simp only [fuelFor, dumpVal]
      by_cases hneg : n < 0
      · simp only [intChars, if_pos hneg, List.length_cons]
        omega
      · obtain ⟨hne, _, _⟩ := natChars_spec n.toNat
        simp only [intChars, if_neg hneg]
        have := List.length_pos.mpr hne
        omega
    | bool b => cases b <;> simp [fuelFor, dumpVal]
    | null => simp [fuelFor, dumpVal]
    | arr xs =>
      cases xs with
      | nil => simp [fuelFor, fuelForList, dumpVal]
      | cons x xs =>
        have hmem : ∀ y ∈ x :: xs, sizeOf y ≤ N := by
          intro y hy
          have hlt := List.sizeOf_lt_of_mem hy
          have hsz : sizeOf (JsonVal.arr (x :: xs)) = 1 + sizeOf (x :: xs) := by
            simp
          omega
        have h1 := ihN x (hmem x (by simp)) (ind + 2)
        have h2 := fuelForList_le_items_of N ihN xs
          (fun y hy => hmem y (by simp [hy])) (ind + 2)
        simp only [fuelFor, fuelForList, dumpVal, List.length_cons,
          List.length_append, indentChars, List.length_replicate]
        omega
    | obj ms =>
      cases ms with
      | nil => simp [fuelFor, fuelForMembers, dumpVal]
      | cons m ms =>
        have hmem : ∀ y ∈ m :: ms, sizeOf y.2 ≤ N := by
          intro y hy
          have hlt := List.sizeOf_lt_of_mem hy
          have hsz : sizeOf (JsonVal.obj (m :: ms)) = 1 + sizeOf (m :: ms) := by
            simp
          have hy2 : sizeOf y.2 < sizeOf y := by
            cases y with
            | mk a b => simp
          omega
        have h1 := ihN m.2 (hmem m (by simp)) (ind + 2)
        have h2 := fuelForMembers_le_members_of N ihN ms
          (fun y hy => hmem y (by simp [hy])) (ind + 2)
        simp only [fuelFor, fuelForMembers, dumpVal, List.length_cons,
          List.length_append, indentChars, List.length_replicate]
        omega

theorem fuelFor_le_dump (v : JsonVal) (ind : Nat) :
    fuelFor v ≤ (dumpVal ind v).length :=
  fuelFor_le_dumpLen (sizeOf v) v le_rfl ind

theorem json_load_dump (v : JsonVal) : json_load (json_dump v) = some v := by
  have hfuel : fuelFor v ≤ (dumpVal 0 v).length + 1 := by
    have := fuelFor_le_dump v 0
    omega
  have hmain := (parse_dump_all ((dumpVal 0 v).length + 1)).1 v 0 [] hfuel rfl
  rw [List.append_nil] at hmain
  show (match parseVal ((dumpVal 0 v).length + 1) (dumpVal 0 v) with
        | some (v, rest) => if skipWs rest = [] then some v else none
        | none => none) = some v
  rw [hmain]
  rfl

/-- C8: saving a well-formed JSON-object document to a path — writing the
exact text `json.dump(document, f, indent=2)` produces — and then loading
from that path — parsing the file text back as `json.load` does — yields
the document again with no warning: save-then-load is the identity on
documents.  Key order is even preserved exactly (CPython dicts and
`json.dump`/`json.load` keep insertion order), which implies the claimed
equality up to key order.  The `valOK` hypothesis is the well-formedness
of the claim: it restricts to documents on which the byte-level model is
character-for-character faithful to CPython (strings over printable ASCII
plus the short-escaped controls, object key lists without duplicates); the
underlying serialise-parse identity `json_load_dump` holds for every
representable document. -/
theorem save_load_text_roundtrip (fs : FSText) (p : FilePath0)
    (kvs : List (String × JsonVal)) (h : valOK (JsonVal.obj kvs) = true) :
    json_load (json_dump (JsonVal.obj kvs)) = some (JsonVal.obj kvs) ∧
    load_storage_text (save_storage_text fs p (JsonVal.obj kvs)) p =
      (JsonVal.obj kvs, false) := by
  have hrt := json_load_dump (JsonVal.obj kvs)
  refine ⟨hrt, ?_⟩
  unfold load_storage_text save_storage_text
  simp [hrt]

/-- Witness for C8: a concrete document with several keys, a negative
number, nested containers and an escaped quote. -/
theorem save_load_text_roundtrip_witness :
    valOK (JsonVal.obj
      [("foo", JsonVal.str "bar"), ("n", JsonVal.num (-42)),
       ("a", JsonVal.arr [JsonVal.null, JsonVal.bool true,
          JsonVal.str "q\"uote"]),
       ("o", JsonVal.obj [("k", JsonVal.num 7)])]) = true ∧
    (json_load (json_dump (JsonVal.obj
        [("foo", JsonVal.str "bar"), ("n", JsonVal.num (-42)),
         ("a", JsonVal.arr [JsonVal.null, JsonVal.bool true,
            JsonVal.str "q\"uote"]),
         ("o", JsonVal.obj [("k", JsonVal.num 7)])])) =
      some (JsonVal.obj
        [("foo", JsonVal.str "bar"), ("n", JsonVal.num (-42)),
         ("a", JsonVal.arr [JsonVal.null, JsonVal.bool true,
            JsonVal.str "q\"uote"]),
         ("o", JsonVal.obj [("k", JsonVal.num 7)])]) ∧
     load_storage_text (save_storage_text (fun _ => none) storageTest
        (JsonVal.obj
          [("foo", JsonVal.str "bar"), ("n", JsonVal.num (-42)),
           ("a", JsonVal.arr [JsonVal.null, JsonVal.bool true,
              JsonVal.str "q\"uote"]),
           ("o", JsonVal.obj [("k", JsonVal.num 7)])])) storageTest =
      (JsonVal.obj
        [("foo", JsonVal.str "bar"), ("n", JsonVal.num (-42)),
         ("a", JsonVal.arr [JsonVal.null, JsonVal.bool true,
            JsonVal.str "q\"uote"]),
         ("o", JsonVal.obj [("k", JsonVal.num 7)])], false)) :=
  ⟨by decide,
   save_load_text_roundtrip (fun _ => none) storageTest
     [("foo", JsonVal.str "bar"), ("n", JsonVal.num (-42)),
      ("a", JsonVal.arr [JsonVal.null, JsonVal.bool true,
         JsonVal.str "q\"uote"]),
      ("o", JsonVal.obj [("k", JsonVal.num 7)])] (by decide)⟩
